import Mathlib

/-!
WickedMotorShield: direction / brake state of the shift-register images, pins and flush.

A shallow embedding of `src/WickedMotorShield.h` and `src/WickedMotorShield.cpp`.

* `uint8_t` values are natural numbers; a state is well formed (`Shield.WF`) when both
  register images are below `256` and `old_dir` has its six entries.
* The static members `first_shift_register`, `second_shift_register` and `old_dir[6]`
  are the fields of `Shield`; a `void` member function that mutates them is a function
  `Shield → ... → Shield`.
* A `Board` adds the static pin members and the trace of platform calls (`pinMode`,
  `digitalWrite`, `shiftOut`, `analogWrite`, `pulseIn`); the functions that talk to the
  hardware are functions `Board → ... → Board`.
-/

namespace WickedMotorShield

/-! ## Constants of `WickedMotorShield.h` -/

/-- Value of the macro `DIR_CCW`. -/
def DIR_CCW : Nat := 0
/-- Value of the macro `DIR_CW`. -/
def DIR_CW : Nat := 1
/-- Value of the macro `BRAKE_OFF`. -/
def BRAKE_OFF : Nat := 0
/-- Value of the macro `BRAKE_HARD`. -/
def BRAKE_HARD : Nat := 1
/-- Value of the macro `BRAKE_SOFT`. -/
def BRAKE_SOFT : Nat := 2

/-- Motor identifier `M1`. -/
def M1 : Nat := 0
/-- Motor identifier `M2`. -/
def M2 : Nat := 1
/-- Motor identifier `M3`. -/
def M3 : Nat := 2
/-- Motor identifier `M4`. -/
def M4 : Nat := 3
/-- Motor identifier `M5`. -/
def M5 : Nat := 4
/-- Motor identifier `M6`. -/
def M6 : Nat := 5

/-- Direction bit of `M4` in the first shift register. -/
def M4_DIR_MASK : Nat := 0x80
/-- Brake bit of `M4` in the first shift register. -/
def M4_BRAKE_MASK : Nat := 0x40
/-- Direction bit of `M1` in the first shift register. -/
def M1_DIR_MASK : Nat := 0x20
/-- Brake bit of `M1` in the first shift register. -/
def M1_BRAKE_MASK : Nat := 0x10
/-- Direction bit of `M2` in the first shift register. -/
def M2_DIR_MASK : Nat := 0x08
/-- Brake bit of `M2` in the first shift register. -/
def M2_BRAKE_MASK : Nat := 0x04
/-- Direction bit of `M3` in the first shift register. -/
def M3_DIR_MASK : Nat := 0x02
/-- Brake bit of `M3` in the first shift register. -/
def M3_BRAKE_MASK : Nat := 0x01
/-- Direction bit of `M6` in the second shift register. -/
def M6_DIR_MASK : Nat := 0x80
/-- Brake bit of `M6` in the second shift register. -/
def M6_BRAKE_MASK : Nat := 0x40
/-- Direction bit of `M5` in the second shift register. -/
def M5_DIR_MASK : Nat := 0x20
/-- Brake bit of `M5` in the second shift register. -/
def M5_BRAKE_MASK : Nat := 0x10

/-- Value of the macro `OPERATION_CLEAR`. -/
def OPERATION_CLEAR : Nat := 0
/-- Value of the macro `OPERATION_SET`. -/
def OPERATION_SET : Nat := 1
/-- Value of the macro `OPERATION_NONE`. -/
def OPERATION_NONE : Nat := 2

/-! ## Shared state -/

/-- The static data members `first_shift_register`, `second_shift_register`, `old_dir[6]`. -/
structure Shield where
  first_shift_register : Nat
  second_shift_register : Nat
  old_dir : List Nat
  deriving DecidableEq, Repr

/-- A state of the machine: both images are `uint8_t`, `old_dir` is a `uint8_t[6]`. -/
def Shield.WF (s : Shield) : Prop :=
  s.first_shift_register < 256 ∧ s.second_shift_register < 256 ∧
    s.old_dir.length = 6 ∧ ∀ x ∈ s.old_dir, x < 256

instance (s : Shield) : Decidable s.WF := by
  unfold Shield.WF; infer_instance

/-- The array read `old_dir[i]`. -/
def Shield.oldDir (s : Shield) (i : Nat) : Nat := s.old_dir.getD i 0

/-- The static initialisers of the `.cpp` file (images `0xff`, `old_dir` all zero). -/
def staticInit : Shield :=
  { first_shift_register := 0xff, second_shift_register := 0xff, old_dir := [0, 0, 0, 0, 0, 0] }

/-! ## Member functions of `WickedMotorShield` -/

/-- The function `get_shift_register_value`: the image that holds the motor. -/
def get_shift_register_value (s : Shield) (motor_number : Nat) : Nat :=
  if motor_number = M5 ∨ motor_number = M6 then s.second_shift_register
  else s.first_shift_register

/-- The function `set_shift_register_value`: store `value` in the image that holds the motor. -/
def set_shift_register_value (s : Shield) (motor_number value : Nat) : Shield :=
  if motor_number = M5 ∨ motor_number = M6 then { s with second_shift_register := value }
  else { s with first_shift_register := value }

/-- The function `apply_mask`, returning the new byte. `~mask` is taken within the eight
bits of the `uint8_t` destination, that is `0xFF ^^^ mask`. -/
def apply_mask (shift_register_value mask operation : Nat) : Nat :=
  if operation = OPERATION_CLEAR then shift_register_value &&& (0xFF ^^^ mask)
  else if operation = OPERATION_SET then shift_register_value ||| mask
  else shift_register_value

/-- The function `filter_mask`. -/
def filter_mask (shift_register_value mask : Nat) : Nat :=
  if shift_register_value &&& mask = 0 then 0 else 1

/-- The function `get_motor_directionM`. -/
def get_motor_directionM (s : Shield) (motor_number : Nat) : Nat :=
  let shift_register_value := get_shift_register_value s motor_number
  if motor_number = M1 then filter_mask shift_register_value M1_DIR_MASK
  else if motor_number = M2 then filter_mask shift_register_value M2_DIR_MASK
  else if motor_number = M3 then filter_mask shift_register_value M3_DIR_MASK
  else if motor_number = M4 then filter_mask shift_register_value M4_DIR_MASK
  else if motor_number = M5 then filter_mask shift_register_value M5_DIR_MASK
  else if motor_number = M6 then filter_mask shift_register_value M6_DIR_MASK
  else 0xff

/-- The function `get_motor_brakeM`. -/
def get_motor_brakeM (s : Shield) (motor_number : Nat) : Nat :=
  let shift_register_value := get_shift_register_value s motor_number
  if motor_number = M1 then filter_mask shift_register_value M1_BRAKE_MASK
  else if motor_number = M2 then filter_mask shift_register_value M2_BRAKE_MASK
  else if motor_number = M3 then filter_mask shift_register_value M3_BRAKE_MASK
  else if motor_number = M4 then filter_mask shift_register_value M4_BRAKE_MASK
  else if motor_number = M5 then filter_mask shift_register_value M5_BRAKE_MASK
  else if motor_number = M6 then filter_mask shift_register_value M6_BRAKE_MASK
  else 0xff

/-- Modelled from the spec: `getMotorBrakeM`, which `setDirectionData` and `setBrakeData`
call but which neither source file declares or defines. The spec's `get_brake` decodes the
brake bit of the owning image and gives the sentinel for a bad channel, which is what the
member `get_motor_brakeM` of the same signature computes. -/
def getMotorBrakeM (s : Shield) (motor_number : Nat) : Nat :=
  get_motor_brakeM s motor_number

/-- The `switch (motor_number)` of `setDirectionData` over the direction masks. -/
def applyDirSwitch (v motor_number dir_operation : Nat) : Nat :=
  if motor_number = M1 then apply_mask v M1_DIR_MASK dir_operation
  else if motor_number = M2 then apply_mask v M2_DIR_MASK dir_operation
  else if motor_number = M3 then apply_mask v M3_DIR_MASK dir_operation
  else if motor_number = M4 then apply_mask v M4_DIR_MASK dir_operation
  else if motor_number = M5 then apply_mask v M5_DIR_MASK dir_operation
  else if motor_number = M6 then apply_mask v M6_DIR_MASK dir_operation
  else v

/-- The function `setDirectionData`. -/
def setDirectionData (s : Shield) (motor_number direction : Nat) : Shield :=
  let shift_register_value := get_shift_register_value s motor_number
  let brake_status := getMotorBrakeM s motor_number
  if motor_number ≥ 6 then s
  else if brake_status > 0 then s
  else
    let dir_operation :=
      if direction = DIR_CW then OPERATION_SET
      else if direction = DIR_CCW then OPERATION_CLEAR
      else OPERATION_NONE
    let s1 : Shield :=
      if direction = DIR_CW then { s with old_dir := s.old_dir.set motor_number 1 }
      else if direction = DIR_CCW then { s with old_dir := s.old_dir.set motor_number 0 }
      else s
    set_shift_register_value s1 motor_number
      (applyDirSwitch shift_register_value motor_number dir_operation)

/-- The `switch (motor_number)` of `setBrakeData`: brake mask first, then direction mask. -/
def applyBrakeSwitch (v motor_number brake_operation dir_operation : Nat) : Nat :=
  if motor_number = M1 then
    apply_mask (apply_mask v M1_BRAKE_MASK brake_operation) M1_DIR_MASK dir_operation
  else if motor_number = M2 then
    apply_mask (apply_mask v M2_BRAKE_MASK brake_operation) M2_DIR_MASK dir_operation
  else if motor_number = M3 then
    apply_mask (apply_mask v M3_BRAKE_MASK brake_operation) M3_DIR_MASK dir_operation
  else if motor_number = M4 then
    apply_mask (apply_mask v M4_BRAKE_MASK brake_operation) M4_DIR_MASK dir_operation
  else if motor_number = M5 then
    apply_mask (apply_mask v M5_BRAKE_MASK brake_operation) M5_DIR_MASK dir_operation
  else if motor_number = M6 then
    apply_mask (apply_mask v M6_BRAKE_MASK brake_operation) M6_DIR_MASK dir_operation
  else v

/-- The function `setBrakeData`. -/
def setBrakeData (s : Shield) (motor_number brake_type : Nat) : Shield :=
  let shift_register_value := get_shift_register_value s motor_number
  if motor_number ≥ 6 then s
  else
    let brake_operation :=
      if brake_type = BRAKE_OFF then OPERATION_CLEAR
      else if brake_type = BRAKE_SOFT then OPERATION_SET
      else if brake_type = BRAKE_HARD then OPERATION_SET
      else OPERATION_NONE
    let dir_operation0 :=
      if brake_type = BRAKE_OFF then OPERATION_NONE
      else if brake_type = BRAKE_SOFT then OPERATION_CLEAR
      else if brake_type = BRAKE_HARD then OPERATION_SET
      else OPERATION_NONE
    let brake_status := getMotorBrakeM s motor_number
    let dir_operation :=
      if brake_type = BRAKE_OFF ∧ brake_status > 0 then
        (if s.oldDir motor_number = 1 then OPERATION_SET else OPERATION_CLEAR)
      else dir_operation0
    let s1 : Shield :=
      if brake_type = BRAKE_OFF ∧ brake_status > 0 then s
      else if brake_status = 0 ∧ (brake_type = BRAKE_SOFT ∨ brake_type = BRAKE_HARD) then
        { s with old_dir := s.old_dir.set motor_number (get_motor_directionM s motor_number) }
      else s
    set_shift_register_value s1 motor_number
      (applyBrakeSwitch shift_register_value motor_number brake_operation dir_operation)

/-! ## Pins, hardware events and the objects built on the shield -/

/-- Value of the macro `M2_PWM_PIN`. -/
def M2_PWM_PIN : Nat := 9
/-- Value of the macro `M3_PWM_PIN`. -/
def M3_PWM_PIN : Nat := 5
/-- Value of the macro `M4_PWM_PIN`. -/
def M4_PWM_PIN : Nat := 10
/-- Value of the macro `M5_PWM_PIN`. -/
def M5_PWM_PIN : Nat := 6
/-- Value of the macro `RCIN1`. -/
def RCIN1 : Nat := 1
/-- Value of the macro `RCIN2`. -/
def RCIN2 : Nat := 2
/-- Value of the macro `SERIAL_CLOCK_PIN`. -/
def SERIAL_CLOCK_PIN : Nat := 2
/-- Value of the macro `SERIAL_LATCH_PIN`. -/
def SERIAL_LATCH_PIN : Nat := 7
/-- Value of the macro `USE_ALTERNATE_PINS`. -/
def USE_ALTERNATE_PINS : Nat := 1

/-- The platform's pin modes. -/
inductive PinMode where
  | INPUT
  | OUTPUT
  deriving DecidableEq, Repr

/-- The platform's logic levels. -/
inductive Level where
  | LOW
  | HIGH
  deriving DecidableEq, Repr

/-- The platform's bit orders for `shiftOut`. -/
inductive BitOrder where
  | LSBFIRST
  | MSBFIRST
  deriving DecidableEq, Repr

/-- One call of a platform primitive, as it is seen on the wires. For `pulseIn` the
timeout is `none` when the two-argument form (platform default timeout) is called. -/
inductive Event where
  | pinMode (pin : Nat) (mode : PinMode)
  | digitalWrite (pin : Nat) (level : Level)
  | shiftOut (dataPin clockPin : Nat) (bitOrder : BitOrder) (value : Nat)
  | analogWrite (pin value : Nat)
  | pulseIn (pin : Nat) (level : Level) (timeout : Option Nat)
  deriving DecidableEq, Repr

/-- The static pin members `SERIAL_DATA_PIN`, `RCIN1_PIN`, `RCIN2_PIN`, `M1_PWM_PIN`,
`M6_PWM_PIN`. -/
structure Pins where
  SERIAL_DATA_PIN : Nat
  RCIN1_PIN : Nat
  RCIN2_PIN : Nat
  M1_PWM_PIN : Nat
  M6_PWM_PIN : Nat
  deriving DecidableEq, Repr

/-- The static initialisers of the pin members (the standard table). -/
def staticPins : Pins :=
  { SERIAL_DATA_PIN := 12, RCIN1_PIN := 4, RCIN2_PIN := 8, M1_PWM_PIN := 11, M6_PWM_PIN := 3 }

/-- All static members together with the trace of platform calls made so far. -/
structure Board where
  shield : Shield
  pins : Pins
  trace : List Event
  deriving DecidableEq, Repr

/-- The function `load_shift_register`. -/
def load_shift_register (b : Board) : Board :=
  { b with trace := b.trace ++
      [Event.digitalWrite SERIAL_LATCH_PIN Level.LOW,
       Event.shiftOut b.pins.SERIAL_DATA_PIN SERIAL_CLOCK_PIN BitOrder.LSBFIRST
         b.shield.second_shift_register,
       Event.shiftOut b.pins.SERIAL_DATA_PIN SERIAL_CLOCK_PIN BitOrder.LSBFIRST
         b.shield.first_shift_register,
       Event.digitalWrite SERIAL_LATCH_PIN Level.HIGH] }

/-- The constructor `WickedMotorShield::WickedMotorShield(use_alternate_pins)`. -/
def WickedMotorShield_new (b : Board) (use_alternate_pins : Nat) : Board :=
  let pins : Pins :=
    if use_alternate_pins = USE_ALTERNATE_PINS then
      { SERIAL_DATA_PIN := 0, RCIN1_PIN := 3, RCIN2_PIN := 11, M1_PWM_PIN := 8, M6_PWM_PIN := 4 }
    else b.pins
  let trace := b.trace ++
    [Event.pinMode SERIAL_CLOCK_PIN PinMode.OUTPUT,
     Event.pinMode SERIAL_LATCH_PIN PinMode.OUTPUT,
     Event.pinMode pins.SERIAL_DATA_PIN PinMode.OUTPUT,
     Event.pinMode pins.RCIN1_PIN PinMode.INPUT,
     Event.pinMode pins.RCIN2_PIN PinMode.INPUT]
  let old_dir := (List.range 6).foldl (fun l ii => l.set ii DIR_CW) b.shield.old_dir
  load_shift_register
    { shield := { b.shield with old_dir := old_dir }, pins := pins, trace := trace }

/-- The function `get_rc_input_pin`. -/
def get_rc_input_pin (p : Pins) (rc_input_number : Nat) : Nat :=
  if rc_input_number = RCIN1 then p.RCIN1_PIN
  else if rc_input_number = RCIN2 then p.RCIN2_PIN
  else 0xff

/-- The function `getRCIN`: the returned value and the board afterwards. The platform's
`pulseIn` is the parameter `measure`, a reading for each pin, level and timeout. -/
def getRCIN (measure : Nat → Level → Option Nat → Nat) (b : Board)
    (rc_input_number timeout : Nat) : Nat × Board :=
  let rc_input_pin := get_rc_input_pin b.pins rc_input_number
  if rc_input_pin = 0xff then (0xffffffff, b)
  else if timeout = 0 then
    (measure rc_input_pin Level.HIGH none,
      { b with trace := b.trace ++ [Event.pulseIn rc_input_pin Level.HIGH none] })
  else
    (measure rc_input_pin Level.HIGH (some timeout),
      { b with trace := b.trace ++ [Event.pulseIn rc_input_pin Level.HIGH (some timeout)] })

/-- The function `setSpeedM`. -/
def setSpeedM (b : Board) (motor_number pwm_val : Nat) : Board :=
  if motor_number = M1 then
    { b with trace := b.trace ++ [Event.analogWrite b.pins.M1_PWM_PIN pwm_val] }
  else if motor_number = M2 then
    { b with trace := b.trace ++ [Event.analogWrite M2_PWM_PIN pwm_val] }
  else if motor_number = M3 then
    { b with trace := b.trace ++ [Event.analogWrite M3_PWM_PIN pwm_val] }
  else if motor_number = M4 then
    { b with trace := b.trace ++ [Event.analogWrite M4_PWM_PIN pwm_val] }
  else if motor_number = M5 then
    { b with trace := b.trace ++ [Event.analogWrite M5_PWM_PIN pwm_val] }
  else if motor_number = M6 then
    { b with trace := b.trace ++ [Event.analogWrite b.pins.M6_PWM_PIN pwm_val] }
  else b

/-- The data members of `Wicked_DCMotor`. -/
structure Wicked_DCMotor where
  motor_number : Nat
  deriving DecidableEq, Repr

/-- The function `Wicked_DCMotor::setDirection`. -/
def Wicked_DCMotor.setDirection (m : Wicked_DCMotor) (b : Board) (direction : Nat) : Board :=
  load_shift_register { b with shield := setDirectionData b.shield m.motor_number direction }

/-- The function `Wicked_DCMotor::setBrake`. -/
def Wicked_DCMotor.setBrake (m : Wicked_DCMotor) (b : Board) (brake_type : Nat) : Board :=
  load_shift_register { b with shield := setBrakeData b.shield m.motor_number brake_type }

/-- The data members of `Wicked_Stepper`. -/
structure Wicked_Stepper where
  direction : Nat
  speed : Nat
  step_delay : Nat
  number_of_steps : Nat
  step_number : Nat
  last_step_time : Nat
  m1 : Nat
  m2 : Nat
  deriving DecidableEq, Repr

/-- The function `Wicked_Stepper::setSpeed`, `step_delay = 60L * 1000L / number_of_steps /
speed`. The product and the first quotient are computed in `long`, the first quotient is
converted to `unsigned long` (reduction modulo `2 ^ 32`) for the division by the `uint32_t`
argument, and the result is stored in a `uint32_t`. A division by zero has no defined
result: `none`. -/
def Wicked_Stepper.setSpeed (st : Wicked_Stepper) (speed : Nat) : Option Wicked_Stepper :=
  let product := 60 * 1000
  if st.number_of_steps = 0 then none
  else
    let quotient := product / st.number_of_steps
    if speed = 0 then none
    else some { st with step_delay := ((quotient % 2 ^ 32) / speed) % 2 ^ 32 }

/-- The function `Wicked_Stepper::stepMotor`. -/
def Wicked_Stepper.stepMotor (st : Wicked_Stepper) (b : Board) (this_step : Int) : Board :=
  let shield :=
    if this_step = 0 then
      setDirectionData (setDirectionData b.shield st.m1 DIR_CW) st.m2 DIR_CCW
    else if this_step = 1 then
      setDirectionData (setDirectionData b.shield st.m1 DIR_CCW) st.m2 DIR_CCW
    else if this_step = 2 then
      setDirectionData (setDirectionData b.shield st.m1 DIR_CCW) st.m2 DIR_CW
    else if this_step = 3 then
      setDirectionData (setDirectionData b.shield st.m1 DIR_CW) st.m2 DIR_CW
    else b.shield
  load_shift_register { b with shield := shield }

/-- The constructor `Wicked_Stepper::Wicked_Stepper(number_of_steps, m1, m2,
use_alternate_pins)`. The member `step_delay` is not assigned by the constructor; its
value afterwards is the parameter `unassigned_step_delay`. -/
def Wicked_Stepper_new (b : Board) (number_of_steps m1 m2 use_alternate_pins : Nat)
    (unassigned_step_delay : Nat) : Wicked_Stepper × Board :=
  let b0 := WickedMotorShield_new b use_alternate_pins
  let st : Wicked_Stepper :=
    { step_number := 0, speed := 0, direction := 0, last_step_time := 0,
      number_of_steps := number_of_steps, m1 := m1, m2 := m2,
      step_delay := unassigned_step_delay }
  let b1 := setSpeedM b0 m1 255
  let b2 := setSpeedM b1 m2 255
  let s1 := setDirectionData b2.shield m1 DIR_CW
  let s2 := setDirectionData s1 m2 DIR_CW
  let s3 := setBrakeData s2 m1 BRAKE_OFF
  let s4 := setBrakeData s3 m2 BRAKE_OFF
  (st, load_shift_register { b2 with shield := s4 })

/-- The constructor `Wicked_DCMotor::Wicked_DCMotor(motor_number, use_alternate_pins)`. -/
def Wicked_DCMotor_new (b : Board) (motor_number use_alternate_pins : Nat) :
    Wicked_DCMotor × Board :=
  ({ motor_number := motor_number }, WickedMotorShield_new b use_alternate_pins)

/-- The update of `step_number` inside the loop of `Wicked_Stepper::step`: increment with
wrap to 0 at `number_of_steps` when `direction == 1`, otherwise decrement with wrap from 0
to `number_of_steps`. The member is a `uint16_t`, so `++` and `--` are modulo `2 ^ 16`. -/
def Wicked_Stepper.advance (st : Wicked_Stepper) : Wicked_Stepper :=
  if st.direction = 1 then
    let incremented := (st.step_number + 1) % 2 ^ 16
    if incremented = st.number_of_steps then { st with step_number := 0 }
    else { st with step_number := incremented }
  else
    let wrapped := if st.step_number = 0 then st.number_of_steps else st.step_number
    { st with step_number := (wrapped + (2 ^ 16 - 1)) % 2 ^ 16 }

/-- The `while (steps_left > 0)` loop of `Wicked_Stepper::step`. The `k`-th call of
`millis()` returns `clock k` (as a `uint32_t`); `fuel` bounds the number of iterations and
the result is `none` when the loop has not finished within it. The difference
`millis() - last_step_time` is taken modulo `2 ^ 32`. -/
def Wicked_Stepper.stepLoop (clock : Nat → Nat) :
    Nat → Nat → Nat → Wicked_Stepper → Board → Option (Wicked_Stepper × Board)
  | _, 0, _, st, b => some (st, b)
  | 0, _ + 1, _, _, _ => none
  | fuel + 1, steps_left + 1, k, st, b =>
    if (clock k % 2 ^ 32 + 2 ^ 32 - st.last_step_time % 2 ^ 32) % 2 ^ 32 ≥ st.step_delay then
      let st1 := { st with last_step_time := clock (k + 1) % 2 ^ 32 }
      let st2 := st1.advance
      Wicked_Stepper.stepLoop clock fuel steps_left (k + 2) st2
        (st2.stepMotor b (st2.step_number % 4))
    else Wicked_Stepper.stepLoop clock fuel (steps_left + 1) (k + 1) st b

/-- The function `Wicked_Stepper::step(number_of_steps)`. The argument is an `int16_t`
and `abs` of it is stored in an `int`; outside `-32767 .. 32767` there is no defined
result (`abs (-32768)` overflows a 16-bit `int`): `none`. -/
def Wicked_Stepper.step (st : Wicked_Stepper) (b : Board) (clock : Nat → Nat) (fuel : Nat)
    (number_of_steps : Int) : Option (Wicked_Stepper × Board) :=
  if number_of_steps < -32767 ∨ 32767 < number_of_steps then none
  else
    let steps_left := number_of_steps.natAbs
    let st1 := if number_of_steps > 0 then { st with direction := 1 } else st
    let st2 := if number_of_steps < 0 then { st1 with direction := 0 } else st1
    Wicked_Stepper.stepLoop clock fuel steps_left 0 st2 b

/-! ## Vocabulary of the statements -/

/-- A call of one of the two mutators with arbitrary arguments. -/
inductive RawCall where
  | setDirection (motor_number direction : Nat)
  | setBrake (motor_number brake_type : Nat)
  deriving DecidableEq, Repr

/-- Perform a `RawCall`. -/
def RawCall.run (s : Shield) : RawCall → Shield
  | .setDirection motor_number direction => setDirectionData s motor_number direction
  | .setBrake motor_number brake_type => setBrakeData s motor_number brake_type

/-- Perform a sequence of raw calls, first call first. -/
def runRawCalls (s : Shield) (calls : List RawCall) : Shield :=
  calls.foldl RawCall.run s

/-- The saved direction of channel `c` agrees with its direction bit while it is unbraked. -/
def SavedAgrees (s : Shield) (c : Nat) : Prop :=
  get_motor_brakeM s c = 0 → s.oldDir c = get_motor_directionM s c

/-- Two pairs of coil directions differ in exactly one coil. -/
def differInOneCoil (p q : Nat × Nat) : Prop :=
  (p.1 ≠ q.1 ∧ p.2 = q.2) ∨ (p.1 = q.1 ∧ p.2 ≠ q.2)

instance (p q : Nat × Nat) : Decidable (differInOneCoil p q) := by
  unfold differInOneCoil; infer_instance

/-- The pair of coil directions of the full-step sequence at phase `k`. -/
def phaseDirections (k : Fin 4) : Nat × Nat :=
  match k with
  | 0 => (DIR_CW, DIR_CCW)
  | 1 => (DIR_CCW, DIR_CCW)
  | 2 => (DIR_CCW, DIR_CW)
  | 3 => (DIR_CW, DIR_CW)

/-- The poll of `step` that reads `clock k` finds the step delay elapsed:
`millis() - last_step_time >= step_delay` in `uint32_t` arithmetic. -/
def Elapsed (clock : Nat → Nat) (k : Nat) (st : Wicked_Stepper) : Prop :=
  (clock k % 2 ^ 32 + 2 ^ 32 - st.last_step_time % 2 ^ 32) % 2 ^ 32 ≥ st.step_delay

instance (clock : Nat → Nat) (k : Nat) (st : Wicked_Stepper) : Decidable (Elapsed clock k st) := by
  unfold Elapsed; infer_instance

/-- One iteration of the loop of `step`, entered with `steps_left + 1` steps to go at
the poll that reads `clock k`, takes a step whose `stepMotor` call has the argument `phase`:
the loop goes on with `steps_left` steps, two clock readings further, with the time stamp
and `step_number` updated, on the board that `stepMotor phase` leaves. -/
def TakesStep (clock : Nat → Nat) (fuel steps_left k : Nat) (st : Wicked_Stepper) (b : Board)
    (phase : Nat) : Prop :=
  Wicked_Stepper.stepLoop clock (fuel + 1) (steps_left + 1) k st b =
    Wicked_Stepper.stepLoop clock fuel steps_left (k + 2)
      ({ st with last_step_time := clock (k + 1) % 2 ^ 32 } : Wicked_Stepper).advance
      (st.stepMotor b (phase : Int))

/-- The number of completed flushes in a trace: its latch-high events. -/
def flushCount (trace : List Event) : Nat :=
  trace.count (Event.digitalWrite 7 Level.HIGH)

/-- The pair (direction of coil `m1`, direction of coil `m2`) decoded from a board. -/
def coilDirections (st : Wicked_Stepper) (b : Board) : Nat × Nat :=
  (get_motor_directionM b.shield st.m1, get_motor_directionM b.shield st.m2)


/-- Direction mask used by the `case` of channel `c` (zero for a bad channel). -/
def dirMask (c : Nat) : Nat :=
  if c = M1 then M1_DIR_MASK else if c = M2 then M2_DIR_MASK
  else if c = M3 then M3_DIR_MASK else if c = M4 then M4_DIR_MASK
  else if c = M5 then M5_DIR_MASK else if c = M6 then M6_DIR_MASK else 0

/-- Brake mask used by the `case` of channel `c` (zero for a bad channel). -/
def brakeMask (c : Nat) : Nat :=
  if c = M1 then M1_BRAKE_MASK else if c = M2 then M2_BRAKE_MASK
  else if c = M3 then M3_BRAKE_MASK else if c = M4 then M4_BRAKE_MASK
  else if c = M5 then M5_BRAKE_MASK else if c = M6 then M6_BRAKE_MASK else 0

/-- Channels `M5`, `M6` live in the second image, every other number selects the first. -/
def inSecond (c : Nat) : Bool := decide (c = M5 ∨ c = M6)

/-- The image that does not hold channel `c`. -/
def otherImage (s : Shield) (c : Nat) : Nat :=
  if c = M5 ∨ c = M6 then s.first_shift_register else s.second_shift_register

/-- The eight masks defined for the first shift register, in channel order. -/
def firstRegisterMasks : List Nat :=
  [M1_DIR_MASK, M1_BRAKE_MASK, M2_DIR_MASK, M2_BRAKE_MASK,
   M3_DIR_MASK, M3_BRAKE_MASK, M4_DIR_MASK, M4_BRAKE_MASK]

/-- The four masks defined for the second shift register, in channel order. -/
def secondRegisterMasks : List Nat :=
  [M5_DIR_MASK, M5_BRAKE_MASK, M6_DIR_MASK, M6_BRAKE_MASK]

/-- A call on one channel that can be made while its brake is engaged. -/
inductive BrakedCall where
  | brakeSoft
  | brakeHard
  | directionCW
  | directionCCW
  deriving DecidableEq, Repr

/-- Perform one `BrakedCall` on channel `c`. -/
def BrakedCall.run (c : Nat) (s : Shield) : BrakedCall → Shield
  | .brakeSoft => setBrakeData s c BRAKE_SOFT
  | .brakeHard => setBrakeData s c BRAKE_HARD
  | .directionCW => setDirectionData s c DIR_CW
  | .directionCCW => setDirectionData s c DIR_CCW

/-- Perform a sequence of calls on channel `c`, first call first. -/
def runBrakedCalls (c : Nat) (s : Shield) (calls : List BrakedCall) : Shield :=
  calls.foldl (BrakedCall.run c) s

/-- The frame of an operation on channel `c` that leads from `s` to `t`: every bit of the
image of `c` outside the direction and brake masks of `c` is the same, the other image is the
same, every `old_dir` entry other than that of `c` is the same, and every other channel
number decodes to the same direction and brake values. -/
def ChannelFrame (c : Nat) (s t : Shield) : Prop :=
  (∀ i, (dirMask c ||| brakeMask c).testBit i = false →
      (get_shift_register_value t c).testBit i = (get_shift_register_value s c).testBit i) ∧
    otherImage t c = otherImage s c ∧
    (∀ d, d ≠ c → t.oldDir d = s.oldDir d) ∧
    (∀ d, d ≠ c → get_motor_directionM t d = get_motor_directionM s d ∧
      get_motor_brakeM t d = get_motor_brakeM s d)

/-- The alternate pin table of the constructor. -/
def alternatePins : Pins :=
  { SERIAL_DATA_PIN := 0, RCIN1_PIN := 3, RCIN2_PIN := 11, M1_PWM_PIN := 8, M6_PWM_PIN := 4 }

/-- The startup state: both images `0xFF`, every `old_dir` entry clockwise. -/
def startupState : Shield :=
  { first_shift_register := 0xff, second_shift_register := 0xff, old_dir := [1, 1, 1, 1, 1, 1] }

/-- The four events of one flush of the images `second`, `first` on data pin `dataPin`. -/
def flushEvents (dataPin second first : Nat) : List Event :=
  [Event.digitalWrite 7 Level.LOW,
   Event.shiftOut dataPin 2 BitOrder.LSBFIRST second,
   Event.shiftOut dataPin 2 BitOrder.LSBFIRST first,
   Event.digitalWrite 7 Level.HIGH]

/-- Brake types applied one after the other to channel `c`, first one first. -/
def runBrakeTypes (c : Nat) (s : Shield) (types : List Nat) : Shield :=
  types.foldl (fun acc t => setBrakeData acc c t) s

/-! ### The channel state machine of the specification -/

/-- A direction value of the specification. -/
inductive Direction where
  | CW
  | CCW
  deriving DecidableEq, Repr

/-- The integer that stands for a direction in the code. -/
def Direction.code : Direction → Nat
  | .CW => DIR_CW
  | .CCW => DIR_CCW

/-- A brake mode of the specification. -/
inductive BrakeMode where
  | Off
  | Soft
  | Hard
  deriving DecidableEq, Repr

/-- The integer that stands for a brake mode in the code. -/
def BrakeMode.code : BrakeMode → Nat
  | .Off => BRAKE_OFF
  | .Soft => BRAKE_SOFT
  | .Hard => BRAKE_HARD

/-- The per-channel states of the specification: unbraked with a visible direction, or
braked soft or hard with a saved direction. -/
inductive SpecChannel where
  | Unbraked (d : Direction)
  | BrakedSoft (saved : Direction)
  | BrakedHard (saved : Direction)
  deriving DecidableEq, Repr

/-- The specification of `set_direction`: rejected while braked, otherwise the new
direction becomes the current one. -/
def SpecChannel.setDirection : SpecChannel → Direction → SpecChannel
  | .Unbraked _, d => .Unbraked d
  | .BrakedSoft saved, _ => .BrakedSoft saved
  | .BrakedHard saved, _ => .BrakedHard saved

/-- The specification of `set_brake`: `Off` restores the saved direction of a braked
channel and leaves an unbraked one alone; `Soft` and `Hard` capture the current direction
when coming from unbraked and keep the saved one when already braked. -/
def SpecChannel.setBrake : SpecChannel → BrakeMode → SpecChannel
  | .Unbraked d, .Off => .Unbraked d
  | .BrakedSoft saved, .Off => .Unbraked saved
  | .BrakedHard saved, .Off => .Unbraked saved
  | .Unbraked d, .Soft => .BrakedSoft d
  | .BrakedSoft saved, .Soft => .BrakedSoft saved
  | .BrakedHard saved, .Soft => .BrakedSoft saved
  | .Unbraked d, .Hard => .BrakedHard d
  | .BrakedSoft saved, .Hard => .BrakedHard saved
  | .BrakedHard saved, .Hard => .BrakedHard saved

/-- The pair (brake bit, direction bit) the specification expects for a channel state. -/
def SpecChannel.decode : SpecChannel → Nat × Nat
  | .Unbraked d => (0, d.code)
  | .BrakedSoft _ => (1, 0)
  | .BrakedHard _ => (1, 1)

/-- A valid command: a channel `0..5` with a direction or a brake mode. -/
inductive Command where
  | setDirection (c : Fin 6) (d : Direction)
  | setBrake (c : Fin 6) (m : BrakeMode)
  deriving DecidableEq, Repr

/-- Perform a command with the code. -/
def Command.run (s : Shield) : Command → Shield
  | .setDirection c d => setDirectionData s c.val d.code
  | .setBrake c m => setBrakeData s c.val m.code

/-- Perform a sequence of commands with the code, first command first. -/
def runCommands (s : Shield) (cmds : List Command) : Shield :=
  cmds.foldl Command.run s

/-- Perform a command on the six channel states of the specification. -/
def specStep (a : Fin 6 → SpecChannel) : Command → Fin 6 → SpecChannel
  | .setDirection c d => Function.update a c ((a c).setDirection d)
  | .setBrake c m => Function.update a c ((a c).setBrake m)

/-- Perform a sequence of commands on the specification, first command first. -/
def specRun (a : Fin 6 → SpecChannel) (cmds : List Command) : Fin 6 → SpecChannel :=
  cmds.foldl specStep a

/-- The startup state of the specification: every channel hard braked, saved clockwise. -/
def specStartup : Fin 6 → SpecChannel :=
  fun _ => .BrakedHard .CW

/-- The pair (brake bit, direction bit) decoded from the images for channel `c`. -/
def decodeChannel (s : Shield) (c : Nat) : Nat × Nat :=
  (get_motor_brakeM s c, get_motor_directionM s c)

/-- The code state `s` represents the channel state `st` on channel `c`: the decoded bits
are the expected ones and, while braked, `old_dir[c]` holds the saved direction. -/
def Represents (s : Shield) (c : Nat) : SpecChannel → Prop
  | .Unbraked d => get_motor_brakeM s c = 0 ∧ get_motor_directionM s c = d.code
  | .BrakedSoft saved =>
      get_motor_brakeM s c = 1 ∧ get_motor_directionM s c = 0 ∧ s.oldDir c = saved.code
  | .BrakedHard saved =>
      get_motor_brakeM s c = 1 ∧ get_motor_directionM s c = 1 ∧ s.oldDir c = saved.code

/-- The values of the `shiftOut` events of a trace, oldest first. -/
def shiftedBytes (trace : List Event) : List Nat :=
  trace.filterMap fun e =>
    match e with
    | .shiftOut _ _ _ value => some value
    | _ => none

/-- The board `r` was reached from `b` by emitting nothing but one flush, and that flush
carries the images `r` holds. -/
def FlushedLast (b r : Board) : Prop :=
  r.trace = b.trace ++
    flushEvents r.pins.SERIAL_DATA_PIN r.shield.second_shift_register
      r.shield.first_shift_register

/-- The state reached from the startup state by releasing channel `c`, setting it
counter-clockwise and braking it hard. -/
def brakedCounterClockwise (c : Nat) : Shield :=
  setBrakeData (setDirectionData (setBrakeData startupState c BRAKE_OFF) c DIR_CCW) c BRAKE_HARD

/-- A stepper used to instantiate the theorems: 200 steps per revolution on `M1`, `M2`. -/
def sampleStepper : Wicked_Stepper :=
  { direction := 0, speed := 0, step_delay := 0, number_of_steps := 200, step_number := 0,
    last_step_time := 0, m1 := 0, m2 := 1 }

/-- A board used to instantiate the theorems: `sampleState` with the standard pins and an
empty trace. -/
def sampleBoard : Board :=
  { shield := { first_shift_register := 0x2D, second_shift_register := 0x90,
                old_dir := [1, 0, 1, 0, 0, 1] },
    pins := staticPins, trace := [] }

/-- A state used to instantiate the theorems: `M1` unbraked clockwise, `M2` hard braked,
`M3` soft braked, `M4` unbraked counter-clockwise, `M5` soft braked, `M6` unbraked clockwise. -/
def sampleState : Shield :=
  { first_shift_register := 0x2D, second_shift_register := 0x90,
    old_dir := [1, 0, 1, 0, 0, 1] }

/-! ## Bitwise facts about `apply_mask` and `filter_mask` -/

theorem testBit_false_of_lt_256 {m i : Nat} (hm : m < 256) (hi : 8 ≤ i) :
    m.testBit i = false := by
  apply Nat.testBit_lt_two_pow
  calc m < 2 ^ 8 := hm
    _ ≤ 2 ^ i := Nat.pow_le_pow_right (by decide) hi

theorem testBit_255 (i : Nat) : (255 : Nat).testBit i = decide (i < 8) := by
  have h : (255 : Nat) = 2 ^ 8 - 1 := by decide
  rw [h, Nat.testBit_two_pow_sub_one]

theorem disjoint_testBit {m n : Nat} (h : m &&& n = 0) (i : Nat) :
    (m.testBit i && n.testBit i) = false := by
  rw [← Nat.testBit_and, h, Nat.zero_testBit]

/-- Setting a non-empty mask makes the mask visible. -/
theorem filter_apply_set (v m : Nat) (hm : m ≠ 0) :
    filter_mask (apply_mask v m OPERATION_SET) m = 1 := by
  have h : (v ||| m) &&& m = m := by
    apply Nat.eq_of_testBit_eq; intro i
    simp only [Nat.testBit_and, Nat.testBit_or]
    cases v.testBit i <;> cases m.testBit i <;> rfl
  simp [filter_mask, apply_mask, OPERATION_SET, OPERATION_CLEAR, h, hm]

/-- Clearing a mask of a byte makes the mask invisible. -/
theorem filter_apply_clear (v m : Nat) (hm : m < 256) :
    filter_mask (apply_mask v m OPERATION_CLEAR) m = 0 := by
  have h : (v &&& (255 ^^^ m)) &&& m = 0 := by
    apply Nat.eq_of_testBit_eq; intro i
    simp only [Nat.testBit_and, Nat.testBit_xor, Nat.zero_testBit, testBit_255]
    by_cases hi : i < 8
    · simp [hi]
    · simp [testBit_false_of_lt_256 hm (Nat.le_of_not_lt hi)]
  simp [filter_mask, apply_mask, OPERATION_CLEAR, h]

/-- An operation on one mask is invisible through a disjoint mask of a byte. -/
theorem apply_mask_and_disjoint (v m n op : Nat) (h : m &&& n = 0) (hn : n < 256) :
    apply_mask v m op &&& n = v &&& n := by
  have hd := disjoint_testBit h
  unfold apply_mask
  split_ifs
  · apply Nat.eq_of_testBit_eq; intro i
    simp only [Nat.testBit_and, Nat.testBit_xor, testBit_255]
    have hdi := hd i
    by_cases hi : i < 8
    · cases hm : m.testBit i <;> cases hn' : n.testBit i <;> simp_all
    · simp [testBit_false_of_lt_256 hn (Nat.le_of_not_lt hi)]
  · apply Nat.eq_of_testBit_eq; intro i
    simp only [Nat.testBit_and, Nat.testBit_or]
    have hdi := hd i
    cases hm : m.testBit i <;> cases hn' : n.testBit i <;> simp_all
  · rfl

theorem filter_apply_disjoint (v m n op : Nat) (h : m &&& n = 0) (hn : n < 256) :
    filter_mask (apply_mask v m op) n = filter_mask v n := by
  unfold filter_mask; rw [apply_mask_and_disjoint v m n op h hn]

/-- On a byte, an operation on a mask changes no bit outside the mask. -/
theorem apply_mask_testBit (v m op i : Nat) (hv : v < 256) (hi : m.testBit i = false) :
    (apply_mask v m op).testBit i = v.testBit i := by
  unfold apply_mask
  split_ifs
  · simp only [Nat.testBit_and, Nat.testBit_xor, testBit_255, hi]
    by_cases h8 : i < 8
    · simp [h8]
    · simp [testBit_false_of_lt_256 hv (Nat.le_of_not_lt h8)]
  · simp [Nat.testBit_or, hi]
  · rfl

/-- The result of `apply_mask` on bytes is a byte. -/
theorem apply_mask_lt (v m op : Nat) (hv : v < 256) (hm : m < 256) :
    apply_mask v m op < 256 := by
  unfold apply_mask
  split_ifs
  · exact lt_of_le_of_lt Nat.and_le_left hv
  · exact Nat.or_lt_two_pow (n := 8) hv hm
  · exact hv

/-- The value of `filter_mask` is `0` or `1`. -/
theorem filter_mask_le_one (v m : Nat) : filter_mask v m ≤ 1 := by
  unfold filter_mask; split_ifs <;> omega

/-! ## The `switch` statements, channel by channel -/

theorem applyDirSwitch_eq {c : Nat} (hc : c < 6) (v op : Nat) :
    applyDirSwitch v c op = apply_mask v (dirMask c) op := by
  interval_cases c <;> rfl

theorem applyBrakeSwitch_eq {c : Nat} (hc : c < 6) (v bop dop : Nat) :
    applyBrakeSwitch v c bop dop =
      apply_mask (apply_mask v (brakeMask c) bop) (dirMask c) dop := by
  interval_cases c <;> rfl

theorem get_motor_directionM_eq {c : Nat} (hc : c < 6) (s : Shield) :
    get_motor_directionM s c = filter_mask (get_shift_register_value s c) (dirMask c) := by
  interval_cases c <;> rfl

theorem get_motor_brakeM_eq {c : Nat} (hc : c < 6) (s : Shield) :
    get_motor_brakeM s c = filter_mask (get_shift_register_value s c) (brakeMask c) := by
  interval_cases c <;> rfl

theorem mask_facts {c : Nat} (hc : c < 6) :
    dirMask c ≠ 0 ∧ dirMask c < 256 ∧ brakeMask c ≠ 0 ∧ brakeMask c < 256 ∧
      dirMask c &&& brakeMask c = 0 ∧ brakeMask c &&& dirMask c = 0 := by
  interval_cases c <;> decide

/-- Masks of two different channels of the same image are disjoint. -/
theorem mask_cross {c d : Nat} (hc : c < 6) (hd : d < 6) (hne : c ≠ d)
    (hreg : inSecond c = inSecond d) :
    dirMask c &&& dirMask d = 0 ∧ dirMask c &&& brakeMask d = 0 ∧
      brakeMask c &&& dirMask d = 0 ∧ brakeMask c &&& brakeMask d = 0 := by
  interval_cases c <;> interval_cases d <;> first | exact absurd rfl hne | exact absurd hreg (by decide) | decide


/-! ## Reading and writing the image of a channel -/

theorem get_set_same (s : Shield) (c v : Nat) :
    get_shift_register_value (set_shift_register_value s c v) c = v := by
  unfold get_shift_register_value set_shift_register_value
  split_ifs <;> rfl

theorem get_set_sameReg (s : Shield) (c d v : Nat) (h : inSecond c = inSecond d) :
    get_shift_register_value (set_shift_register_value s c v) d = v := by
  unfold inSecond at h
  unfold get_shift_register_value set_shift_register_value
  by_cases hc : c = M5 ∨ c = M6 <;> by_cases hd : d = M5 ∨ d = M6 <;> simp_all

theorem get_set_otherReg (s : Shield) (c d v : Nat) (h : inSecond c ≠ inSecond d) :
    get_shift_register_value (set_shift_register_value s c v) d =
      get_shift_register_value s d := by
  unfold inSecond at h
  unfold get_shift_register_value set_shift_register_value
  by_cases hc : c = M5 ∨ c = M6 <;> by_cases hd : d = M5 ∨ d = M6 <;> simp_all

theorem old_dir_set_reg (s : Shield) (c v : Nat) :
    (set_shift_register_value s c v).old_dir = s.old_dir := by
  unfold set_shift_register_value
  split_ifs <;> rfl

theorem set_get_self (s : Shield) (c : Nat) :
    set_shift_register_value s c (get_shift_register_value s c) = s := by
  unfold get_shift_register_value set_shift_register_value
  split_ifs <;> rfl

/-- Clearing an invisible mask of a byte, or setting a visible single bit, changes nothing. -/
theorem apply_clear_of_filter_zero (v m : Nat) (hv : v < 256)
    (h : filter_mask v m = 0) : apply_mask v m OPERATION_CLEAR = v := by
  have h0 : v &&& m = 0 := by
    unfold filter_mask at h
    by_contra hne
    simp [hne] at h
  have hd := disjoint_testBit h0
  unfold apply_mask
  simp only [if_true]
  apply Nat.eq_of_testBit_eq; intro i
  simp only [Nat.testBit_and, Nat.testBit_xor, testBit_255]
  have hdi := hd i
  by_cases hi : i < 8
  · cases hv' : v.testBit i <;> cases hm : m.testBit i <;> simp_all
  · simp [testBit_false_of_lt_256 hv (Nat.le_of_not_lt hi)]

/-! ## `setBrakeData` and `setDirectionData`, case by case -/

theorem setBrakeData_bad (s : Shield) (c t : Nat) (hc : 6 ≤ c) : setBrakeData s c t = s := by
  simp [setBrakeData, hc]

/-- Brake off on a braked channel: clear the brake bit, restore the direction bit. -/
theorem setBrakeData_off_braked (s : Shield) (c : Nat) (hc : c < 6)
    (hb : 0 < get_motor_brakeM s c) :
    setBrakeData s c BRAKE_OFF =
      set_shift_register_value s c
        (apply_mask (apply_mask (get_shift_register_value s c) (brakeMask c) OPERATION_CLEAR)
          (dirMask c) (if s.oldDir c = 1 then OPERATION_SET else OPERATION_CLEAR)) := by
  simp [setBrakeData, Nat.not_le.mpr hc, getMotorBrakeM, hb, applyBrakeSwitch_eq hc]

/-- Brake off on an unbraked channel: clear the brake bit, no direction operation. -/
theorem setBrakeData_off_unbraked (s : Shield) (c : Nat) (hc : c < 6)
    (hb : get_motor_brakeM s c = 0) :
    setBrakeData s c BRAKE_OFF =
      set_shift_register_value s c
        (apply_mask (apply_mask (get_shift_register_value s c) (brakeMask c) OPERATION_CLEAR)
          (dirMask c) OPERATION_NONE) := by
  simp [setBrakeData, Nat.not_le.mpr hc, getMotorBrakeM, hb, applyBrakeSwitch_eq hc,
    BRAKE_SOFT, BRAKE_OFF, BRAKE_HARD]

/-- Soft brake on an unbraked channel: capture the direction, set brake, clear direction. -/
theorem setBrakeData_soft_unbraked (s : Shield) (c : Nat) (hc : c < 6)
    (hb : get_motor_brakeM s c = 0) :
    setBrakeData s c BRAKE_SOFT =
      set_shift_register_value
        { s with old_dir := s.old_dir.set c (get_motor_directionM s c) } c
        (apply_mask (apply_mask (get_shift_register_value s c) (brakeMask c) OPERATION_SET)
          (dirMask c) OPERATION_CLEAR) := by
  simp [setBrakeData, Nat.not_le.mpr hc, getMotorBrakeM, hb, applyBrakeSwitch_eq hc,
    BRAKE_SOFT, BRAKE_OFF, BRAKE_HARD]

/-- Hard brake on an unbraked channel: capture the direction, set brake, set direction. -/
theorem setBrakeData_hard_unbraked (s : Shield) (c : Nat) (hc : c < 6)
    (hb : get_motor_brakeM s c = 0) :
    setBrakeData s c BRAKE_HARD =
      set_shift_register_value
        { s with old_dir := s.old_dir.set c (get_motor_directionM s c) } c
        (apply_mask (apply_mask (get_shift_register_value s c) (brakeMask c) OPERATION_SET)
          (dirMask c) OPERATION_SET) := by
  simp [setBrakeData, Nat.not_le.mpr hc, getMotorBrakeM, hb, applyBrakeSwitch_eq hc,
    BRAKE_SOFT, BRAKE_OFF, BRAKE_HARD]

/-- Soft brake on a braked channel: `old_dir` is left alone. -/
theorem setBrakeData_soft_braked (s : Shield) (c : Nat) (hc : c < 6)
    (hb : 0 < get_motor_brakeM s c) :
    setBrakeData s c BRAKE_SOFT =
      set_shift_register_value s c
        (apply_mask (apply_mask (get_shift_register_value s c) (brakeMask c) OPERATION_SET)
          (dirMask c) OPERATION_CLEAR) := by
  simp [setBrakeData, Nat.not_le.mpr hc, getMotorBrakeM, Nat.ne_of_gt hb,
    applyBrakeSwitch_eq hc, BRAKE_SOFT, BRAKE_OFF, BRAKE_HARD]

/-- Hard brake on a braked channel: `old_dir` is left alone. -/
theorem setBrakeData_hard_braked (s : Shield) (c : Nat) (hc : c < 6)
    (hb : 0 < get_motor_brakeM s c) :
    setBrakeData s c BRAKE_HARD =
      set_shift_register_value s c
        (apply_mask (apply_mask (get_shift_register_value s c) (brakeMask c) OPERATION_SET)
          (dirMask c) OPERATION_SET) := by
  simp [setBrakeData, Nat.not_le.mpr hc, getMotorBrakeM, Nat.ne_of_gt hb,
    applyBrakeSwitch_eq hc, BRAKE_SOFT, BRAKE_OFF, BRAKE_HARD]

/-- A brake type that is none of the three constants changes nothing. -/
theorem setBrakeData_other (s : Shield) (c t : Nat) (hc : c < 6) (ht : 3 ≤ t) :
    setBrakeData s c t = s := by
  have h0 : t ≠ BRAKE_OFF := by unfold BRAKE_OFF; omega
  have h1 : t ≠ BRAKE_HARD := by unfold BRAKE_HARD; omega
  have h2 : t ≠ BRAKE_SOFT := by unfold BRAKE_SOFT; omega
  simp [setBrakeData, Nat.not_le.mpr hc, h0, h1, h2, applyBrakeSwitch_eq hc, apply_mask,
    OPERATION_NONE, OPERATION_CLEAR, OPERATION_SET, set_get_self]

theorem setDirectionData_bad (s : Shield) (c d : Nat) (hc : 6 ≤ c) :
    setDirectionData s c d = s := by
  simp [setDirectionData, hc]

theorem setDirectionData_braked (s : Shield) (c d : Nat)
    (hb : 0 < get_motor_brakeM s c) : setDirectionData s c d = s := by
  simp [setDirectionData, getMotorBrakeM, hb]

theorem setDirectionData_cw (s : Shield) (c : Nat) (hc : c < 6)
    (hb : get_motor_brakeM s c = 0) :
    setDirectionData s c DIR_CW =
      set_shift_register_value { s with old_dir := s.old_dir.set c 1 } c
        (apply_mask (get_shift_register_value s c) (dirMask c) OPERATION_SET) := by
  simp [setDirectionData, Nat.not_le.mpr hc, getMotorBrakeM, hb, applyDirSwitch_eq hc]

theorem setDirectionData_ccw (s : Shield) (c : Nat) (hc : c < 6)
    (hb : get_motor_brakeM s c = 0) :
    setDirectionData s c DIR_CCW =
      set_shift_register_value { s with old_dir := s.old_dir.set c 0 } c
        (apply_mask (get_shift_register_value s c) (dirMask c) OPERATION_CLEAR) := by
  simp [setDirectionData, Nat.not_le.mpr hc, getMotorBrakeM, hb, applyDirSwitch_eq hc,
    DIR_CW, DIR_CCW]

theorem setDirectionData_other (s : Shield) (c d : Nat) (hd : 2 ≤ d) :
    setDirectionData s c d = s := by
  have h0 : d ≠ DIR_CCW := by unfold DIR_CCW; omega
  have h1 : d ≠ DIR_CW := by unfold DIR_CW; omega
  by_cases hc : 6 ≤ c
  · exact setDirectionData_bad s c d hc
  · simp [setDirectionData, hc, h0, h1, applyDirSwitch_eq (Nat.lt_of_not_le hc), apply_mask,
      OPERATION_NONE, OPERATION_CLEAR, OPERATION_SET, set_get_self]

/-! ## Decoding a channel after its image was written -/

theorem dir_after_set {c : Nat} (hc : c < 6) (s : Shield) (v : Nat) :
    get_motor_directionM (set_shift_register_value s c v) c = filter_mask v (dirMask c) := by
  rw [get_motor_directionM_eq hc, get_set_same]

theorem brake_after_set {c : Nat} (hc : c < 6) (s : Shield) (v : Nat) :
    get_motor_brakeM (set_shift_register_value s c v) c = filter_mask v (brakeMask c) := by
  rw [get_motor_brakeM_eq hc, get_set_same]

/-- The brake bit after the two `apply_mask` calls of `setBrakeData` with `OPERATION_SET`. -/
theorem brake_bit_set {c : Nat} (hc : c < 6) (v dop : Nat) :
    filter_mask (apply_mask (apply_mask v (brakeMask c) OPERATION_SET) (dirMask c) dop)
      (brakeMask c) = 1 := by
  obtain ⟨_, _, hb0, hb, hdb, _⟩ := mask_facts hc
  rw [filter_apply_disjoint _ _ _ _ hdb hb, filter_apply_set _ _ hb0]

/-- The brake bit after the two `apply_mask` calls of `setBrakeData` with `OPERATION_CLEAR`. -/
theorem brake_bit_clear {c : Nat} (hc : c < 6) (v dop : Nat) :
    filter_mask (apply_mask (apply_mask v (brakeMask c) OPERATION_CLEAR) (dirMask c) dop)
      (brakeMask c) = 0 := by
  obtain ⟨_, _, _, hb, hdb, _⟩ := mask_facts hc
  rw [filter_apply_disjoint _ _ _ _ hdb hb, filter_apply_clear _ _ hb]

theorem braked_or_not (s : Shield) (c : Nat) :
    get_motor_brakeM s c = 0 ∨ 0 < get_motor_brakeM s c := by omega

/-! ## Brake encoding -/

theorem soft_decodes (s : Shield) (c : Nat) (hc : c < 6) :
    get_motor_brakeM (setBrakeData s c BRAKE_SOFT) c = 1 ∧
      get_motor_directionM (setBrakeData s c BRAKE_SOFT) c = 0 := by
  obtain ⟨_, hd, _, _, _, _⟩ := mask_facts hc
  rcases braked_or_not s c with hb | hb
  · rw [setBrakeData_soft_unbraked s c hc hb, brake_after_set hc, dir_after_set hc]
    exact ⟨brake_bit_set hc _ _, filter_apply_clear _ _ hd⟩
  · rw [setBrakeData_soft_braked s c hc hb, brake_after_set hc, dir_after_set hc]
    exact ⟨brake_bit_set hc _ _, filter_apply_clear _ _ hd⟩

theorem hard_decodes (s : Shield) (c : Nat) (hc : c < 6) :
    get_motor_brakeM (setBrakeData s c BRAKE_HARD) c = 1 ∧
      get_motor_directionM (setBrakeData s c BRAKE_HARD) c = 1 := by
  obtain ⟨hd0, _, _, _, _, _⟩ := mask_facts hc
  rcases braked_or_not s c with hb | hb
  · rw [setBrakeData_hard_unbraked s c hc hb, brake_after_set hc, dir_after_set hc]
    exact ⟨brake_bit_set hc _ _, filter_apply_set _ _ hd0⟩
  · rw [setBrakeData_hard_braked s c hc hb, brake_after_set hc, dir_after_set hc]
    exact ⟨brake_bit_set hc _ _, filter_apply_set _ _ hd0⟩

theorem off_decodes (s : Shield) (c : Nat) (hc : c < 6) :
    get_motor_brakeM (setBrakeData s c BRAKE_OFF) c = 0 := by
  rcases braked_or_not s c with hb | hb
  · rw [setBrakeData_off_unbraked s c hc hb, brake_after_set hc]
    exact brake_bit_clear hc _ _
  · rw [setBrakeData_off_braked s c hc hb, brake_after_set hc]
    exact brake_bit_clear hc _ _

/-- C2. Brake encoding: on every channel `c < 6` and in every state, after
`setBrakeData c BRAKE_SOFT` the brake bit decodes as 1 and the direction bit as 0, after
`setBrakeData c BRAKE_HARD` both decode as 1, and after `setBrakeData c BRAKE_OFF` the brake
bit decodes as 0. -/
theorem brake_encoding (s : Shield) (c : Nat) (hc : c < 6) :
    (get_motor_brakeM (setBrakeData s c BRAKE_SOFT) c = 1 ∧
      get_motor_directionM (setBrakeData s c BRAKE_SOFT) c = 0) ∧
    (get_motor_brakeM (setBrakeData s c BRAKE_HARD) c = 1 ∧
      get_motor_directionM (setBrakeData s c BRAKE_HARD) c = 1) ∧
    get_motor_brakeM (setBrakeData s c BRAKE_OFF) c = 0 :=
  ⟨soft_decodes s c hc, hard_decodes s c hc, off_decodes s c hc⟩

/-- Instance of `brake_encoding`: channel `M4` of `sampleState`. -/
theorem brake_encoding_witness :
    (3 < 6) ∧
    ((get_motor_brakeM (setBrakeData sampleState 3 BRAKE_SOFT) 3 = 1 ∧
      get_motor_directionM (setBrakeData sampleState 3 BRAKE_SOFT) 3 = 0) ∧
    (get_motor_brakeM (setBrakeData sampleState 3 BRAKE_HARD) 3 = 1 ∧
      get_motor_directionM (setBrakeData sampleState 3 BRAKE_HARD) 3 = 1) ∧
    get_motor_brakeM (setBrakeData sampleState 3 BRAKE_OFF) 3 = 0) :=
  ⟨by decide, brake_encoding sampleState 3 (by decide)⟩

/-! ## Direction changes while braked -/

/-- C3. A direction change on a braked channel is rejected: when the brake bit of channel
`c` decodes as 1 (which only a channel `c < 6` can do), `setDirectionData c dir` returns the
state unchanged, for every `dir`; so both images, the whole `old_dir` table and the decoded
direction of `c` are unchanged. -/
theorem direction_rejected_while_braked (s : Shield) (c dir : Nat)
    (hb : get_motor_brakeM s c = 1) :
    setDirectionData s c dir = s ∧
      get_motor_directionM (setDirectionData s c dir) c = get_motor_directionM s c ∧
      (setDirectionData s c dir).oldDir c = s.oldDir c := by
  have h : setDirectionData s c dir = s := setDirectionData_braked s c dir (by omega)
  rw [h]
  exact ⟨rfl, rfl, rfl⟩

/-- Instance of `direction_rejected_while_braked`: clockwise on the hard braked `M2`. -/
theorem direction_rejected_while_braked_witness :
    (get_motor_brakeM sampleState 1 = 1) ∧
    (setDirectionData sampleState 1 DIR_CW = sampleState ∧
      get_motor_directionM (setDirectionData sampleState 1 DIR_CW) 1 =
        get_motor_directionM sampleState 1 ∧
      (setDirectionData sampleState 1 DIR_CW).oldDir 1 = sampleState.oldDir 1) :=
  ⟨by decide, direction_rejected_while_braked sampleState 1 DIR_CW (by decide)⟩

/-! ## Direction round trip -/

/-- C7. Direction round trip: on an unbraked channel `c < 6`, after `setDirectionData c d`
with `d` one of `DIR_CW`, `DIR_CCW`, the decoded direction is `d` and the channel is still
unbraked. -/
theorem direction_round_trip (s : Shield) (c d : Nat) (hc : c < 6)
    (hd : d = DIR_CW ∨ d = DIR_CCW) (hb : get_motor_brakeM s c = 0) :
    get_motor_directionM (setDirectionData s c d) c = d ∧
      get_motor_brakeM (setDirectionData s c d) c = 0 := by
  obtain ⟨hd0, hdlt, _, hblt, hdb, _⟩ := mask_facts hc
  have hb' : filter_mask (get_shift_register_value s c) (brakeMask c) = 0 := by
    rw [← get_motor_brakeM_eq hc]; exact hb
  rcases hd with rfl | rfl
  · rw [setDirectionData_cw s c hc hb, dir_after_set hc, brake_after_set hc,
      filter_apply_set _ _ hd0, filter_apply_disjoint _ _ _ _ hdb hblt]
    exact ⟨rfl, hb'⟩
  · rw [setDirectionData_ccw s c hc hb, dir_after_set hc, brake_after_set hc,
      filter_apply_clear _ _ hdlt, filter_apply_disjoint _ _ _ _ hdb hblt]
    exact ⟨rfl, hb'⟩

/-- Instance of `direction_round_trip`: counter-clockwise on the unbraked `M6`. -/
theorem direction_round_trip_witness :
    (5 < 6 ∧ (DIR_CCW = DIR_CW ∨ DIR_CCW = DIR_CCW) ∧ get_motor_brakeM sampleState 5 = 0) ∧
    (get_motor_directionM (setDirectionData sampleState 5 DIR_CCW) 5 = DIR_CCW ∧
      get_motor_brakeM (setDirectionData sampleState 5 DIR_CCW) 5 = 0) :=
  ⟨⟨by decide, by decide, by decide⟩,
    direction_round_trip sampleState 5 DIR_CCW (by decide) (by decide) (by decide)⟩

/-! ## Bad channel numbers -/

theorem decoders_bad (s : Shield) (n : Nat) (hn : 6 ≤ n) :
    get_motor_directionM s n = 0xFF ∧ get_motor_brakeM s n = 0xFF := by
  have h1 : n ≠ M1 := by unfold M1; omega
  have h2 : n ≠ M2 := by unfold M2; omega
  have h3 : n ≠ M3 := by unfold M3; omega
  have h4 : n ≠ M4 := by unfold M4; omega
  have h5 : n ≠ M5 := by unfold M5; omega
  have h6 : n ≠ M6 := by unfold M6; omega
  constructor
  · simp [get_motor_directionM, h1, h2, h3, h4, h5, h6]
  · simp [get_motor_brakeM, h1, h2, h3, h4, h5, h6]

/-- C8. A channel number `n` with `6 ≤ n` (in particular `6 ≤ n ≤ 255`) is a no-op:
`setDirectionData` and `setBrakeData` return the state unchanged for every argument, and
both decoders return the sentinel `0xFF`. -/
theorem invalid_channel_noop (s : Shield) (n arg : Nat) (hn : 6 ≤ n) :
    setDirectionData s n arg = s ∧ setBrakeData s n arg = s ∧
      get_motor_directionM s n = 0xFF ∧ get_motor_brakeM s n = 0xFF :=
  ⟨setDirectionData_bad s n arg hn, setBrakeData_bad s n arg hn, decoders_bad s n hn⟩

/-- Instance of `invalid_channel_noop`: channel number 6 with argument 1. -/
theorem invalid_channel_noop_witness :
    (6 ≤ 6) ∧
    (setDirectionData sampleState 6 1 = sampleState ∧ setBrakeData sampleState 6 1 = sampleState ∧
      get_motor_directionM sampleState 6 = 0xFF ∧ get_motor_brakeM sampleState 6 = 0xFF) :=
  ⟨by decide, invalid_channel_noop sampleState 6 1 (by decide)⟩

/-! ## Mask layout -/

/-- C10. Mask layout: each of the eight masks of the first register is a single bit, they
are pairwise disjoint and their OR is `0xFF`; each of the four masks of the second register
is a single bit and they are pairwise disjoint; the direction mask and the brake mask of a
channel differ. -/
theorem mask_layout :
    (∀ m ∈ firstRegisterMasks, ∃ k < 8, m = 2 ^ k) ∧
    firstRegisterMasks.Pairwise (fun a b => a &&& b = 0) ∧
    firstRegisterMasks.foldl (fun a b => a ||| b) 0 = 0xFF ∧
    (∀ m ∈ secondRegisterMasks, ∃ k < 8, m = 2 ^ k) ∧
    secondRegisterMasks.Pairwise (fun a b => a &&& b = 0) ∧
    (M1_DIR_MASK ≠ M1_BRAKE_MASK ∧ M2_DIR_MASK ≠ M2_BRAKE_MASK ∧
      M3_DIR_MASK ≠ M3_BRAKE_MASK ∧ M4_DIR_MASK ≠ M4_BRAKE_MASK ∧
      M5_DIR_MASK ≠ M5_BRAKE_MASK ∧ M6_DIR_MASK ≠ M6_BRAKE_MASK) := by
  decide

/-! ## Releasing, engaging and switching the brake -/

theorem get_lt_of_WF {s : Shield} (h : s.WF) (c : Nat) : get_shift_register_value s c < 256 := by
  unfold get_shift_register_value
  split_ifs
  · exact h.2.1
  · exact h.1

theorem otherImage_set (s : Shield) (c v : Nat) :
    otherImage (set_shift_register_value s c v) c = otherImage s c := by
  unfold otherImage set_shift_register_value
  split_ifs <;> rfl

theorem oldDir_set_reg (s : Shield) (c v i : Nat) :
    (set_shift_register_value s c v).oldDir i = s.oldDir i := by
  unfold Shield.oldDir
  rw [old_dir_set_reg]

theorem getD_set_same (l : List Nat) (c x : Nat) (h : c < l.length) :
    (l.set c x).getD c 0 = x := by
  simp [List.getD_eq_getElem?_getD, List.getElem?_set_self h]

theorem getD_set_ne (l : List Nat) (c i x : Nat) (h : c ≠ i) :
    (l.set c x).getD i 0 = l.getD i 0 := by
  simp [List.getD_eq_getElem?_getD, List.getElem?_set_ne h]

/-- Setting a single bit that is already visible changes nothing. -/
theorem apply_set_of_filter_one (v k : Nat) (h : filter_mask v (2 ^ k) = 1) :
    apply_mask v (2 ^ k) OPERATION_SET = v := by
  have hk : v.testBit k = true := by
    by_contra hk
    have hz : v &&& 2 ^ k = 0 := by
      apply Nat.eq_of_testBit_eq; intro i
      simp only [Nat.testBit_and, Nat.testBit_two_pow, Nat.zero_testBit]
      by_cases hi : k = i
      · subst hi; simp [hk]
      · simp [hi]
    simp [filter_mask, hz] at h
  have : v ||| 2 ^ k = v := by
    apply Nat.eq_of_testBit_eq; intro i
    simp only [Nat.testBit_or, Nat.testBit_two_pow]
    by_cases hi : k = i
    · subst hi; simp [hk]
    · simp [hi]
  simp [apply_mask, OPERATION_SET, OPERATION_CLEAR, this]

theorem brakeMask_pow {c : Nat} (hc : c < 6) : ∃ k, brakeMask c = 2 ^ k := by
  interval_cases c
  · exact ⟨4, by decide⟩
  · exact ⟨2, by decide⟩
  · exact ⟨0, by decide⟩
  · exact ⟨6, by decide⟩
  · exact ⟨4, by decide⟩
  · exact ⟨6, by decide⟩

/-- Releasing a braked channel: brake bit 0, direction bit 1 exactly when `old_dir` is 1. -/
theorem release_braked (s : Shield) (c : Nat) (hc : c < 6) (hb : 0 < get_motor_brakeM s c) :
    get_motor_directionM (setBrakeData s c BRAKE_OFF) c = (if s.oldDir c = 1 then 1 else 0) ∧
      get_motor_brakeM (setBrakeData s c BRAKE_OFF) c = 0 := by
  obtain ⟨hd0, hdlt, _, _, _, _⟩ := mask_facts hc
  rw [setBrakeData_off_braked s c hc hb, dir_after_set hc, brake_after_set hc]
  refine ⟨?_, brake_bit_clear hc _ _⟩
  split_ifs
  · exact filter_apply_set _ _ hd0
  · exact filter_apply_clear _ _ hdlt

/-- Releasing an unbraked channel of a well-formed state changes nothing. -/
theorem release_unbraked (s : Shield) (c : Nat) (hc : c < 6) (hwf : s.WF)
    (hb : get_motor_brakeM s c = 0) : setBrakeData s c BRAKE_OFF = s := by
  have hf : filter_mask (get_shift_register_value s c) (brakeMask c) = 0 := by
    rw [← get_motor_brakeM_eq hc]; exact hb
  rw [setBrakeData_off_unbraked s c hc hb,
    apply_clear_of_filter_zero _ _ (get_lt_of_WF hwf c) hf]
  have : apply_mask (get_shift_register_value s c) (dirMask c) OPERATION_NONE =
      get_shift_register_value s c := rfl
  rw [this, set_get_self]

/-- Engaging the brake on an unbraked channel stores the decoded direction in `old_dir`. -/
theorem engage_captures (s : Shield) (c t : Nat) (hc : c < 6) (hlen : s.old_dir.length = 6)
    (hb : get_motor_brakeM s c = 0) (ht : t = BRAKE_SOFT ∨ t = BRAKE_HARD) :
    (setBrakeData s c t).oldDir c = get_motor_directionM s c := by
  have hl : c < s.old_dir.length := by omega
  rcases ht with rfl | rfl
  · rw [setBrakeData_soft_unbraked s c hc hb, oldDir_set_reg]
    exact getD_set_same _ _ _ hl
  · rw [setBrakeData_hard_unbraked s c hc hb, oldDir_set_reg]
    exact getD_set_same _ _ _ hl

/-- Switching the brake mode of a braked channel leaves `old_dir` alone. -/
theorem switch_keeps_old_dir (s : Shield) (c t : Nat) (hc : c < 6)
    (hb : 0 < get_motor_brakeM s c) (ht : t = BRAKE_SOFT ∨ t = BRAKE_HARD) :
    (setBrakeData s c t).old_dir = s.old_dir := by
  rcases ht with rfl | rfl
  · rw [setBrakeData_soft_braked s c hc hb, old_dir_set_reg]
  · rw [setBrakeData_hard_braked s c hc hb, old_dir_set_reg]

/-- Switching the brake mode of a braked channel touches only its direction bit. -/
theorem switch_touches_dir_bit (s : Shield) (c t : Nat) (hc : c < 6) (hwf : s.WF)
    (hb : get_motor_brakeM s c = 1) (ht : t = BRAKE_SOFT ∨ t = BRAKE_HARD) :
    otherImage (setBrakeData s c t) c = otherImage s c ∧
      ∀ i, (dirMask c).testBit i = false →
        (get_shift_register_value (setBrakeData s c t) c).testBit i =
          (get_shift_register_value s c).testBit i := by
  have hb0 : 0 < get_motor_brakeM s c := by omega
  have hf : filter_mask (get_shift_register_value s c) (brakeMask c) = 1 := by
    rw [← get_motor_brakeM_eq hc]; exact hb
  obtain ⟨k, hk⟩ := brakeMask_pow hc
  have hset : apply_mask (get_shift_register_value s c) (brakeMask c) OPERATION_SET =
      get_shift_register_value s c := by
    rw [hk] at hf ⊢
    exact apply_set_of_filter_one _ _ hf
  have hv := get_lt_of_WF hwf c
  rcases ht with rfl | rfl
  · rw [setBrakeData_soft_braked s c hc hb0, otherImage_set, get_set_same, hset]
    exact ⟨rfl, fun i hi => apply_mask_testBit _ _ _ _ hv hi⟩
  · rw [setBrakeData_hard_braked s c hc hb0, otherImage_set, get_set_same, hset]
    exact ⟨rfl, fun i hi => apply_mask_testBit _ _ _ _ hv hi⟩

/-- C4. `setBrakeData c BRAKE_OFF` on a channel `c < 6` of a well-formed state: if the
channel was braked, afterwards the brake bit decodes as 0 and the direction bit decodes as 1
when `old_dir[c]` is `DIR_CW` and as 0 otherwise, so it equals `old_dir[c]` whenever that
entry is a direction value (0 or 1); if the channel was unbraked, the state (both images
and `old_dir`) is returned unchanged. -/
theorem brake_off_semantics (s : Shield) (c : Nat) (hc : c < 6) (hwf : s.WF) :
    (get_motor_brakeM s c = 1 →
      get_motor_directionM (setBrakeData s c BRAKE_OFF) c =
          (if s.oldDir c = DIR_CW then 1 else 0) ∧
        (s.oldDir c ≤ 1 → get_motor_directionM (setBrakeData s c BRAKE_OFF) c = s.oldDir c) ∧
        get_motor_brakeM (setBrakeData s c BRAKE_OFF) c = 0) ∧
    (get_motor_brakeM s c = 0 → setBrakeData s c BRAKE_OFF = s) := by
  refine ⟨fun hb => ?_, fun hb => release_unbraked s c hc hwf hb⟩
  obtain ⟨h1, h2⟩ := release_braked s c hc (by omega)
  refine ⟨h1, fun hle => ?_, h2⟩
  rw [h1]
  split_ifs with h
  · exact h.symm
  · omega

/-- Instance of `brake_off_semantics`: the soft braked `M3` of `sampleState`. -/
theorem brake_off_semantics_witness :
    (2 < 6 ∧ sampleState.WF) ∧
    ((get_motor_brakeM sampleState 2 = 1 →
      get_motor_directionM (setBrakeData sampleState 2 BRAKE_OFF) 2 =
          (if sampleState.oldDir 2 = DIR_CW then 1 else 0) ∧
        (sampleState.oldDir 2 ≤ 1 →
          get_motor_directionM (setBrakeData sampleState 2 BRAKE_OFF) 2 =
            sampleState.oldDir 2) ∧
        get_motor_brakeM (setBrakeData sampleState 2 BRAKE_OFF) 2 = 0) ∧
    (get_motor_brakeM sampleState 2 = 0 → setBrakeData sampleState 2 BRAKE_OFF = sampleState)) :=
  ⟨⟨by decide, by decide⟩, brake_off_semantics sampleState 2 (by decide) (by decide)⟩

/-- C5. Capture on braking: on an unbraked channel `c < 6` of a well-formed state, after
`setBrakeData c BRAKE_SOFT` or `setBrakeData c BRAKE_HARD` the entry `old_dir[c]` is the
direction bit the channel had before the call. -/
theorem capture_on_braking (s : Shield) (c t : Nat) (hc : c < 6) (hwf : s.WF)
    (hb : get_motor_brakeM s c = 0) (ht : t = BRAKE_SOFT ∨ t = BRAKE_HARD) :
    (setBrakeData s c t).oldDir c = get_motor_directionM s c :=
  engage_captures s c t hc hwf.2.2.1 hb ht

/-- Instance of `capture_on_braking`: hard brake on the unbraked `M4` of `sampleState`. -/
theorem capture_on_braking_witness :
    (3 < 6 ∧ sampleState.WF ∧ get_motor_brakeM sampleState 3 = 0 ∧
      (BRAKE_HARD = BRAKE_SOFT ∨ BRAKE_HARD = BRAKE_HARD)) ∧
    (setBrakeData sampleState 3 BRAKE_HARD).oldDir 3 = get_motor_directionM sampleState 3 :=
  ⟨⟨by decide, by decide, by decide, by decide⟩,
    capture_on_braking sampleState 3 BRAKE_HARD (by decide) (by decide) (by decide)
      (by decide)⟩

/-- C6. No re-capture between braked sub-modes: on a braked channel `c < 6` of a
well-formed state, `setBrakeData c BRAKE_SOFT` and `setBrakeData c BRAKE_HARD` leave the
whole `old_dir` table unchanged, leave the other image unchanged, and change no bit of the
owning image outside the direction mask of `c`. -/
theorem no_recapture_while_braked (s : Shield) (c t : Nat) (hc : c < 6) (hwf : s.WF)
    (hb : get_motor_brakeM s c = 1) (ht : t = BRAKE_SOFT ∨ t = BRAKE_HARD) :
    (setBrakeData s c t).old_dir = s.old_dir ∧
      otherImage (setBrakeData s c t) c = otherImage s c ∧
      ∀ i, (dirMask c).testBit i = false →
        (get_shift_register_value (setBrakeData s c t) c).testBit i =
          (get_shift_register_value s c).testBit i :=
  ⟨switch_keeps_old_dir s c t hc (by omega) ht, switch_touches_dir_bit s c t hc hwf hb ht⟩

/-- Instance of `no_recapture_while_braked`: hard brake on the soft braked `M5`. -/
theorem no_recapture_while_braked_witness :
    (4 < 6 ∧ sampleState.WF ∧ get_motor_brakeM sampleState 4 = 1 ∧
      (BRAKE_HARD = BRAKE_SOFT ∨ BRAKE_HARD = BRAKE_HARD)) ∧
    ((setBrakeData sampleState 4 BRAKE_HARD).old_dir = sampleState.old_dir ∧
      otherImage (setBrakeData sampleState 4 BRAKE_HARD) 4 = otherImage sampleState 4 ∧
      ∀ i, (dirMask 4).testBit i = false →
        (get_shift_register_value (setBrakeData sampleState 4 BRAKE_HARD) 4).testBit i =
          (get_shift_register_value sampleState 4).testBit i) :=
  ⟨⟨by decide, by decide, by decide, by decide⟩,
    no_recapture_while_braked sampleState 4 BRAKE_HARD (by decide) (by decide) (by decide)
      (by decide)⟩

/-! ## The frame of the two mutators -/

theorem channelFrame_refl (c : Nat) (s : Shield) : ChannelFrame c s s :=
  ⟨fun _ _ => rfl, rfl, fun _ _ => rfl, fun _ _ => ⟨rfl, rfl⟩⟩

theorem get_eq_of_sameReg (s : Shield) (c d : Nat) (h : inSecond c = inSecond d) :
    get_shift_register_value s d = get_shift_register_value s c := by
  unfold inSecond at h
  unfold get_shift_register_value
  by_cases hc : c = M5 ∨ c = M6 <;> by_cases hd : d = M5 ∨ d = M6 <;> simp_all

/-- Every state the mutators build on channel `c` is in the frame of `c`. -/
theorem channelFrame_write (s : Shield) (c : Nat) (hc : c < 6) (hwf : s.WF) (l : List Nat)
    (hl : ∀ d, d ≠ c → l.getD d 0 = s.old_dir.getD d 0) (bop dop : Nat) :
    ChannelFrame c s
      (set_shift_register_value { s with old_dir := l } c
        (apply_mask (apply_mask (get_shift_register_value s c) (brakeMask c) bop)
          (dirMask c) dop)) := by
  obtain ⟨_, hdlt, _, hblt, _, _⟩ := mask_facts hc
  have hv := get_lt_of_WF hwf c
  refine ⟨fun i hi => ?_, ?_, fun d hd => ?_, fun d hd => ?_⟩
  · rw [Nat.testBit_or, Bool.or_eq_false_iff] at hi
    rw [get_set_same, apply_mask_testBit _ _ _ _ (apply_mask_lt _ _ _ hv hblt) hi.1,
      apply_mask_testBit _ _ _ _ hv hi.2]
  · rw [otherImage_set]; rfl
  · rw [oldDir_set_reg]; exact hl d hd
  · by_cases hd6 : d < 6
    · by_cases hreg : inSecond c = inSecond d
      · obtain ⟨_, hd', _, hb', _, _⟩ := mask_facts hd6
        obtain ⟨h1, h2, h3, h4⟩ := mask_cross hc hd6 (Ne.symm hd) hreg
        rw [get_motor_directionM_eq hd6, get_motor_brakeM_eq hd6, get_motor_directionM_eq hd6,
          get_motor_brakeM_eq hd6, get_set_sameReg _ _ _ _ hreg, get_eq_of_sameReg s c d hreg,
          filter_apply_disjoint _ _ _ _ h1 hd', filter_apply_disjoint _ _ _ _ h3 hd',
          filter_apply_disjoint _ _ _ _ h2 hb', filter_apply_disjoint _ _ _ _ h4 hb']
        exact ⟨rfl, rfl⟩
      · rw [get_motor_directionM_eq hd6, get_motor_brakeM_eq hd6, get_motor_directionM_eq hd6,
          get_motor_brakeM_eq hd6, get_set_otherReg _ _ _ _ hreg]
        exact ⟨rfl, rfl⟩
    · have h6 : 6 ≤ d := Nat.le_of_not_lt hd6
      rw [(decoders_bad _ d h6).1, (decoders_bad _ d h6).2, (decoders_bad s d h6).1,
        (decoders_bad s d h6).2]
      exact ⟨rfl, rfl⟩

theorem channelFrame_setBrakeData (s : Shield) (c t : Nat) (hc : c < 6) (hwf : s.WF) :
    ChannelFrame c s (setBrakeData s c t) := by
  have keep : ∀ d, d ≠ c → s.old_dir.getD d 0 = s.old_dir.getD d 0 := fun _ _ => rfl
  have upd : ∀ x d, d ≠ c → (s.old_dir.set c x).getD d 0 = s.old_dir.getD d 0 :=
    fun x d hd => getD_set_ne _ _ _ _ (Ne.symm hd)
  by_cases ht : 3 ≤ t
  · rw [setBrakeData_other s c t hc ht]; exact channelFrame_refl c s
  · have ht3 : t < 3 := Nat.lt_of_not_le ht
    rcases braked_or_not s c with hb | hb
    · interval_cases t
      · rw [show (0 : Nat) = BRAKE_OFF from rfl, setBrakeData_off_unbraked s c hc hb]
        exact channelFrame_write s c hc hwf s.old_dir keep _ _
      · rw [show (1 : Nat) = BRAKE_HARD from rfl, setBrakeData_hard_unbraked s c hc hb]
        exact channelFrame_write s c hc hwf _ (upd _) _ _
      · rw [show (2 : Nat) = BRAKE_SOFT from rfl, setBrakeData_soft_unbraked s c hc hb]
        exact channelFrame_write s c hc hwf _ (upd _) _ _
    · interval_cases t
      · rw [show (0 : Nat) = BRAKE_OFF from rfl, setBrakeData_off_braked s c hc hb]
        exact channelFrame_write s c hc hwf s.old_dir keep _ _
      · rw [show (1 : Nat) = BRAKE_HARD from rfl, setBrakeData_hard_braked s c hc hb]
        exact channelFrame_write s c hc hwf s.old_dir keep _ _
      · rw [show (2 : Nat) = BRAKE_SOFT from rfl, setBrakeData_soft_braked s c hc hb]
        exact channelFrame_write s c hc hwf s.old_dir keep _ _

theorem channelFrame_setDirectionData (s : Shield) (c d : Nat) (hc : c < 6) (hwf : s.WF) :
    ChannelFrame c s (setDirectionData s c d) := by
  have upd : ∀ x e, e ≠ c → (s.old_dir.set c x).getD e 0 = s.old_dir.getD e 0 :=
    fun x e he => getD_set_ne _ _ _ _ (Ne.symm he)
  by_cases hd : 2 ≤ d
  · rw [setDirectionData_other s c d hd]; exact channelFrame_refl c s
  · have hd2 : d < 2 := Nat.lt_of_not_le hd
    rcases braked_or_not s c with hb | hb
    · interval_cases d
      · rw [show (0 : Nat) = DIR_CCW from rfl, setDirectionData_ccw s c hc hb]
        exact channelFrame_write s c hc hwf _ (upd _) OPERATION_NONE OPERATION_CLEAR
      · rw [show (1 : Nat) = DIR_CW from rfl, setDirectionData_cw s c hc hb]
        exact channelFrame_write s c hc hwf _ (upd _) OPERATION_NONE OPERATION_SET
    · rw [setDirectionData_braked s c d hb]; exact channelFrame_refl c s

/-- C9. Per-channel frame: for every channel `c < 6`, every argument and every well-formed
state, `setDirectionData c arg` and `setBrakeData c arg` change no bit of the image of `c`
other than the direction bit and the brake bit of `c`, leave the other image unchanged,
leave `old_dir[d]` unchanged for every `d ≠ c`, and leave the decoded direction and brake
of every `d ≠ c` unchanged. -/
theorem per_channel_frame (s : Shield) (c arg : Nat) (hc : c < 6) (hwf : s.WF) :
    ChannelFrame c s (setDirectionData s c arg) ∧ ChannelFrame c s (setBrakeData s c arg) :=
  ⟨channelFrame_setDirectionData s c arg hc hwf, channelFrame_setBrakeData s c arg hc hwf⟩

/-- Instance of `per_channel_frame`: argument 1 (clockwise, hard brake) on `M1`. -/
theorem per_channel_frame_witness :
    (0 < 6 ∧ sampleState.WF) ∧
    (ChannelFrame 0 sampleState (setDirectionData sampleState 0 1) ∧
      ChannelFrame 0 sampleState (setBrakeData sampleState 0 1)) :=
  ⟨⟨by decide, by decide⟩, per_channel_frame sampleState 0 1 (by decide) (by decide)⟩

/-! ## A brake cycle preserves the direction -/

theorem brakedCall_invariant (c : Nat) (hc : c < 6) (s : Shield) (call : BrakedCall)
    (hb : 0 < get_motor_brakeM s c) :
    0 < get_motor_brakeM (call.run c s) c ∧ (call.run c s).old_dir = s.old_dir := by
  cases call
  · exact ⟨by rw [show BrakedCall.brakeSoft.run c s = setBrakeData s c BRAKE_SOFT from rfl,
      (soft_decodes s c hc).1]; decide, switch_keeps_old_dir s c _ hc hb (Or.inl rfl)⟩
  · exact ⟨by rw [show BrakedCall.brakeHard.run c s = setBrakeData s c BRAKE_HARD from rfl,
      (hard_decodes s c hc).1]; decide, switch_keeps_old_dir s c _ hc hb (Or.inr rfl)⟩
  · rw [show BrakedCall.directionCW.run c s = setDirectionData s c DIR_CW from rfl,
      setDirectionData_braked s c _ hb]
    exact ⟨hb, rfl⟩
  · rw [show BrakedCall.directionCCW.run c s = setDirectionData s c DIR_CCW from rfl,
      setDirectionData_braked s c _ hb]
    exact ⟨hb, rfl⟩

theorem runBrakedCalls_invariant (c : Nat) (hc : c < 6) (calls : List BrakedCall) :
    ∀ s : Shield, 0 < get_motor_brakeM s c →
      0 < get_motor_brakeM (runBrakedCalls c s calls) c ∧
        (runBrakedCalls c s calls).old_dir = s.old_dir := by
  induction calls with
  | nil => intro s hb; exact ⟨hb, rfl⟩
  | cons call rest ih =>
    intro s hb
    obtain ⟨h1, h2⟩ := brakedCall_invariant c hc s call hb
    obtain ⟨h3, h4⟩ := ih (call.run c s) h1
    exact ⟨h3, h4.trans h2⟩

/-- C1. Direction is preserved across a brake cycle: for every channel `c < 6` and every
well-formed state in which `c` is unbraked, after `setBrakeData c BRAKE_SOFT` or
`setBrakeData c BRAKE_HARD`, then any finite sequence of soft brake, hard brake, clockwise
and counter-clockwise calls on `c`, then `setBrakeData c BRAKE_OFF`, the decoded direction
of `c` is the one it had at the start and its brake decodes as 0. -/
theorem direction_preserved_across_brake_cycle (s : Shield) (c t : Nat)
    (calls : List BrakedCall) (hc : c < 6) (hwf : s.WF) (hb : get_motor_brakeM s c = 0)
    (ht : t = BRAKE_SOFT ∨ t = BRAKE_HARD) :
    get_motor_directionM
        (setBrakeData (runBrakedCalls c (setBrakeData s c t) calls) c BRAKE_OFF) c =
      get_motor_directionM s c ∧
    get_motor_brakeM
        (setBrakeData (runBrakedCalls c (setBrakeData s c t) calls) c BRAKE_OFF) c = 0 := by
  have hcap : (setBrakeData s c t).oldDir c = get_motor_directionM s c :=
    engage_captures s c t hc hwf.2.2.1 hb ht
  have hbr : 0 < get_motor_brakeM (setBrakeData s c t) c := by
    rcases ht with rfl | rfl
    · rw [(soft_decodes s c hc).1]; decide
    · rw [(hard_decodes s c hc).1]; decide
  obtain ⟨hb2, hold⟩ := runBrakedCalls_invariant c hc calls _ hbr
  obtain ⟨hdir, hoff⟩ := release_braked _ c hc hb2
  refine ⟨?_, hoff⟩
  have hold2 : (runBrakedCalls c (setBrakeData s c t) calls).oldDir c =
      get_motor_directionM s c := by
    unfold Shield.oldDir at hcap ⊢
    rw [hold]; exact hcap
  rw [hdir, hold2]
  have hle : get_motor_directionM s c ≤ 1 := by
    rw [get_motor_directionM_eq hc]; exact filter_mask_le_one _ _
  split_ifs with h
  · exact h.symm
  · omega

/-- Instance of `direction_preserved_across_brake_cycle`: the unbraked counter-clockwise
`M4`, soft brake, then hard, clockwise, soft, counter-clockwise, then release. -/
theorem direction_preserved_across_brake_cycle_witness :
    (3 < 6 ∧ sampleState.WF ∧ get_motor_brakeM sampleState 3 = 0 ∧
      (BRAKE_SOFT = BRAKE_SOFT ∨ BRAKE_SOFT = BRAKE_HARD)) ∧
    (get_motor_directionM
        (setBrakeData (runBrakedCalls 3 (setBrakeData sampleState 3 BRAKE_SOFT)
          [.brakeHard, .directionCW, .brakeSoft, .directionCCW]) 3 BRAKE_OFF) 3 =
      get_motor_directionM sampleState 3 ∧
    get_motor_brakeM
        (setBrakeData (runBrakedCalls 3 (setBrakeData sampleState 3 BRAKE_SOFT)
          [.brakeHard, .directionCW, .brakeSoft, .directionCCW]) 3 BRAKE_OFF) 3 = 0) :=
  ⟨⟨by decide, by decide, by decide, by decide⟩,
    direction_preserved_across_brake_cycle sampleState 3 BRAKE_SOFT
      [.brakeHard, .directionCW, .brakeSoft, .directionCCW]
      (by decide) (by decide) (by decide) (by decide)⟩

/-! ## Scenarios from the startup state -/

/-- C13. Scenario, on every channel `c` in `0..5`: from the startup state (both images
`0xFF`, `old_dir` all clockwise) the calls `setDirectionData c DIR_CW`,
`setBrakeData c BRAKE_HARD`, `setBrakeData c BRAKE_SOFT`, `setBrakeData c BRAKE_OFF` end with
decoded direction clockwise (1) and decoded brake 0. -/
theorem scenario_direction_hard_soft_off : ∀ c : Fin 6,
    get_motor_directionM
        (setBrakeData (setBrakeData (setBrakeData (setDirectionData startupState c.val DIR_CW)
          c.val BRAKE_HARD) c.val BRAKE_SOFT) c.val BRAKE_OFF) c.val = DIR_CW ∧
      get_motor_brakeM
        (setBrakeData (setBrakeData (setBrakeData (setDirectionData startupState c.val DIR_CW)
          c.val BRAKE_HARD) c.val BRAKE_SOFT) c.val BRAKE_OFF) c.val = 0 := by
  decide

/-- C14. Scenario on the second image: from the startup state, `setBrakeData 5 BRAKE_SOFT`
followed by `setBrakeData 5 BRAKE_OFF` ends with decoded direction clockwise and decoded
brake 0 on channel 5, and the first image is still `0xFF`. -/
theorem scenario_second_image_soft_off :
    get_motor_directionM (setBrakeData (setBrakeData startupState 5 BRAKE_SOFT) 5 BRAKE_OFF) 5 =
        DIR_CW ∧
      get_motor_brakeM (setBrakeData (setBrakeData startupState 5 BRAKE_SOFT) 5 BRAKE_OFF) 5 =
        0 ∧
      (setBrakeData (setBrakeData startupState 5 BRAKE_SOFT) 5 BRAKE_OFF).first_shift_register =
        0xFF := by
  decide

/-! ## The flush -/

theorem shiftedBytes_flush (t : List Event) (dataPin second first : Nat) :
    (shiftedBytes (t ++ flushEvents dataPin second first)).reverse.take 2 = [first, second] := by
  simp [shiftedBytes, flushEvents, List.filterMap_append]

/-- C17. Flush wire sequence: `load_shift_register` appends to the trace exactly the four
events latch pin 7 low, shift-out of the second image, shift-out of the first image (both
least significant bit first on the data pin and clock pin 2), latch pin 7 high, in this
order, and changes neither image, nor `old_dir`, nor the pins. -/
theorem flush_wire_sequence (b : Board) :
    (load_shift_register b).trace =
        b.trace ++
          [Event.digitalWrite 7 Level.LOW,
           Event.shiftOut b.pins.SERIAL_DATA_PIN 2 BitOrder.LSBFIRST
             b.shield.second_shift_register,
           Event.shiftOut b.pins.SERIAL_DATA_PIN 2 BitOrder.LSBFIRST
             b.shield.first_shift_register,
           Event.digitalWrite 7 Level.HIGH] ∧
      (load_shift_register b).shield = b.shield ∧
      (load_shift_register b).pins = b.pins :=
  ⟨rfl, rfl, rfl⟩

/-- C18. Hardware is never stale after a facade mutation: for every board and argument,
`Wicked_DCMotor::setDirection`, `Wicked_DCMotor::setBrake` and `Wicked_Stepper::stepMotor`
return a board whose shield is the result of the `setDirectionData` / `setBrakeData` calls
and whose trace is the old trace followed by nothing but one flush of the images it now
holds; so the two bytes shifted out last are the current second and first image. -/
theorem hardware_never_stale (m : Wicked_DCMotor) (st : Wicked_Stepper) (b : Board)
    (arg : Nat) (this_step : Int) :
    ((m.setDirection b arg).shield = setDirectionData b.shield m.motor_number arg ∧
      FlushedLast b (m.setDirection b arg) ∧
      (shiftedBytes (m.setDirection b arg).trace).reverse.take 2 =
        [(m.setDirection b arg).shield.first_shift_register,
         (m.setDirection b arg).shield.second_shift_register]) ∧
    ((m.setBrake b arg).shield = setBrakeData b.shield m.motor_number arg ∧
      FlushedLast b (m.setBrake b arg) ∧
      (shiftedBytes (m.setBrake b arg).trace).reverse.take 2 =
        [(m.setBrake b arg).shield.first_shift_register,
         (m.setBrake b arg).shield.second_shift_register]) ∧
    (FlushedLast b (st.stepMotor b this_step) ∧
      (shiftedBytes (st.stepMotor b this_step).trace).reverse.take 2 =
        [(st.stepMotor b this_step).shield.first_shift_register,
         (st.stepMotor b this_step).shield.second_shift_register]) :=
  ⟨⟨rfl, rfl, shiftedBytes_flush _ _ _ _⟩, ⟨rfl, rfl, shiftedBytes_flush _ _ _ _⟩,
    ⟨rfl, shiftedBytes_flush _ _ _ _⟩⟩

/-! ## The remote-control inputs -/

/-- C19. RC input validation: for every input number other than 1 and 2 and every
timeout `getRCIN` returns `0xFFFFFFFF` and leaves the board, trace included, as it was (no
`pulseIn`); with the pins of the standard or the alternate table, input 1 (resp. 2) is one
`pulseIn` on `RCIN1_PIN` (resp. `RCIN2_PIN`) at level high, with the platform default
timeout when `timeout = 0` and with the given timeout otherwise, and its reading is
returned. -/
theorem rc_input_validation (measure : Nat → Level → Option Nat → Nat) (b : Board)
    (n timeout : Nat) (hp : b.pins = staticPins ∨ b.pins = alternatePins) :
    (n ≠ 1 → n ≠ 2 → getRCIN measure b n timeout = (0xFFFFFFFF, b)) ∧
    (getRCIN measure b 1 0 =
      (measure b.pins.RCIN1_PIN Level.HIGH none,
        { b with trace := b.trace ++ [Event.pulseIn b.pins.RCIN1_PIN Level.HIGH none] })) ∧
    (timeout ≠ 0 → getRCIN measure b 1 timeout =
      (measure b.pins.RCIN1_PIN Level.HIGH (some timeout),
        { b with trace := b.trace ++
            [Event.pulseIn b.pins.RCIN1_PIN Level.HIGH (some timeout)] })) ∧
    (getRCIN measure b 2 0 =
      (measure b.pins.RCIN2_PIN Level.HIGH none,
        { b with trace := b.trace ++ [Event.pulseIn b.pins.RCIN2_PIN Level.HIGH none] })) ∧
    (timeout ≠ 0 → getRCIN measure b 2 timeout =
      (measure b.pins.RCIN2_PIN Level.HIGH (some timeout),
        { b with trace := b.trace ++
            [Event.pulseIn b.pins.RCIN2_PIN Level.HIGH (some timeout)] })) := by
  refine ⟨fun h1 h2 => ?_, ?_, fun ht => ?_, ?_, fun ht => ?_⟩
  · simp [getRCIN, get_rc_input_pin, RCIN1, RCIN2, h1, h2]
  · rcases hp with hp | hp <;>
      simp [getRCIN, get_rc_input_pin, RCIN1, RCIN2, hp, staticPins, alternatePins]
  · rcases hp with hp | hp <;>
      simp [getRCIN, get_rc_input_pin, RCIN1, RCIN2, hp, staticPins, alternatePins, ht]
  · rcases hp with hp | hp <;>
      simp [getRCIN, get_rc_input_pin, RCIN1, RCIN2, hp, staticPins, alternatePins]
  · rcases hp with hp | hp <;>
      simp [getRCIN, get_rc_input_pin, RCIN1, RCIN2, hp, staticPins, alternatePins, ht]

/-- Instance of `rc_input_validation`: input 3 and timeout 500 on `sampleBoard`, with a
meter that reads 1500 everywhere. -/
theorem rc_input_validation_witness :
    (sampleBoard.pins = staticPins ∨ sampleBoard.pins = alternatePins) ∧
    getRCIN (fun _ _ _ => 1500) sampleBoard 3 500 = (0xFFFFFFFF, sampleBoard) :=
  ⟨by decide,
    (rc_input_validation (fun _ _ _ => 1500) sampleBoard 3 500 (by decide)).1
      (by decide) (by decide)⟩

/-! ## The step delay -/

theorem step_delay_no_wrap (N rpm : Nat) :
    ((60 * 1000 / N) % 2 ^ 32 / rpm) % 2 ^ 32 = 60000 / N / rpm := by
  have h1 : 60000 / N ≤ 60000 := Nat.div_le_self _ _
  have h2 : 60000 / N / rpm ≤ 60000 / N := Nat.div_le_self _ _
  have e : (60 * 1000 : Nat) = 60000 := by norm_num
  have e1 : 60000 / N % 2 ^ 32 = 60000 / N := Nat.mod_eq_of_lt (by omega)
  rw [e, e1]
  exact Nat.mod_eq_of_lt (by omega)

/-- C20. Stepper delay formula: with `number_of_steps = N ≥ 1` and `rpm ≥ 1`,
`Wicked_Stepper::setSpeed rpm` returns, and stores `step_delay = (60000 / N) / rpm` with
truncating division and changes no other member; this value is `60000 / (N * rpm)` over
the naturals and the floor of the rational quotient; the product `60 * 1000` fits a signed
32-bit `long` and the stored value is below `2 ^ 32`, so nothing wraps. -/
theorem stepper_delay_formula (st : Wicked_Stepper) (rpm : Nat)
    (hN : 1 ≤ st.number_of_steps) (hr : 1 ≤ rpm) :
    st.setSpeed rpm = some { st with step_delay := 60000 / st.number_of_steps / rpm } ∧
      60000 / st.number_of_steps / rpm = 60000 / (st.number_of_steps * rpm) ∧
      60000 / st.number_of_steps / rpm =
        ⌊(60000 : ℚ) / ((st.number_of_steps : ℚ) * (rpm : ℚ))⌋₊ ∧
      60 * 1000 < 2 ^ 31 ∧ 60000 / st.number_of_steps / rpm < 2 ^ 32 := by
  have h1 : 60000 / st.number_of_steps ≤ 60000 := Nat.div_le_self _ _
  have h2 : 60000 / st.number_of_steps / rpm ≤ 60000 / st.number_of_steps :=
    Nat.div_le_self _ _
  have hN0 : st.number_of_steps ≠ 0 := by omega
  have hr0 : rpm ≠ 0 := by omega
  refine ⟨?_, Nat.div_div_eq_div_mul _ _ _, ?_, by norm_num, by omega⟩
  · simp only [Wicked_Stepper.setSpeed, if_neg hN0, if_neg hr0, step_delay_no_wrap]
  · rw [Nat.div_div_eq_div_mul]
    have hf : ⌊((60000 : ℕ) : ℚ) / ((st.number_of_steps * rpm : ℕ) : ℚ)⌋₊ =
        60000 / (st.number_of_steps * rpm) := Nat.floor_div_eq_div _ _
    rw [← hf]
    norm_num

/-- Instance of `stepper_delay_formula`: 200 steps per revolution at 60 rpm give 5 ms. -/
theorem stepper_delay_formula_witness :
    (1 ≤ sampleStepper.number_of_steps ∧ 1 ≤ 60) ∧
    sampleStepper.setSpeed 60 = some { sampleStepper with step_delay := 5 } :=
  ⟨⟨by decide, by decide⟩,
    (stepper_delay_formula sampleStepper 60 (by decide) (by decide)).1⟩

/-! ## The constructor -/

theorem ctor_old_dir (l : List Nat) (h : l.length = 6) :
    (List.range 6).foldl (fun acc ii => acc.set ii DIR_CW) l =
      [DIR_CW, DIR_CW, DIR_CW, DIR_CW, DIR_CW, DIR_CW] := by
  match l, h with
  | [_, _, _, _, _, _], _ => rfl

theorem decode_all_ones (s : Shield) (h1 : s.first_shift_register = 0xFF)
    (h2 : s.second_shift_register = 0xFF) (c : Nat) (hc : c < 6) :
    get_motor_brakeM s c = 1 ∧ get_motor_directionM s c = 1 := by
  have hv : get_shift_register_value s c = 0xFF := by
    unfold get_shift_register_value
    split_ifs
    · exact h2
    · exact h1
  have hm : ∀ d : Fin 6, filter_mask 0xFF (brakeMask d.val) = 1 ∧
      filter_mask 0xFF (dirMask d.val) = 1 := by decide
  rw [get_motor_brakeM_eq hc, get_motor_directionM_eq hc, hv]
  exact hm ⟨c, hc⟩

theorem ctor_shield (b : Board) (flag : Nat) :
    (WickedMotorShield_new b flag).shield =
      { b.shield with
        old_dir := (List.range 6).foldl (fun acc ii => acc.set ii DIR_CW) b.shield.old_dir } :=
  rfl

/-- The static initialisers followed by a first construction give the startup state. -/
theorem ctor_from_static (flag : Nat) :
    (WickedMotorShield_new { shield := staticInit, pins := staticPins, trace := [] } flag).shield =
      startupState := rfl

/-- C15, as the code has it. The constructor never writes the images: for every
well-formed prior state it leaves both images as they were, sets all six `old_dir` entries
to clockwise, and appends to the trace five `pinMode` calls followed by exactly one flush;
every channel `0..5` decodes as hard brake afterwards when both prior images are `0xFF`, as
the static initialisers leave them. -/
theorem constructor_safe_state (b : Board) (flag : Nat) (hwf : b.shield.WF) :
    (WickedMotorShield_new b flag).shield.old_dir =
        [DIR_CW, DIR_CW, DIR_CW, DIR_CW, DIR_CW, DIR_CW] ∧
      (WickedMotorShield_new b flag).shield.first_shift_register =
        b.shield.first_shift_register ∧
      (WickedMotorShield_new b flag).shield.second_shift_register =
        b.shield.second_shift_register ∧
      (WickedMotorShield_new b flag).trace =
        b.trace ++
          [Event.pinMode 2 PinMode.OUTPUT, Event.pinMode 7 PinMode.OUTPUT,
           Event.pinMode (WickedMotorShield_new b flag).pins.SERIAL_DATA_PIN PinMode.OUTPUT,
           Event.pinMode (WickedMotorShield_new b flag).pins.RCIN1_PIN PinMode.INPUT,
           Event.pinMode (WickedMotorShield_new b flag).pins.RCIN2_PIN PinMode.INPUT] ++
          flushEvents (WickedMotorShield_new b flag).pins.SERIAL_DATA_PIN
            b.shield.second_shift_register b.shield.first_shift_register ∧
      (b.shield.first_shift_register = 0xFF → b.shield.second_shift_register = 0xFF →
        ∀ c, c < 6 →
          get_motor_brakeM (WickedMotorShield_new b flag).shield c = 1 ∧
            get_motor_directionM (WickedMotorShield_new b flag).shield c = 1) := by
  refine ⟨?_, rfl, rfl, ?_, fun h1 h2 c hc => ?_⟩
  · rw [ctor_shield]; exact ctor_old_dir _ hwf.2.2.1
  · simp [WickedMotorShield_new, load_shift_register, flushEvents, SERIAL_CLOCK_PIN,
      SERIAL_LATCH_PIN]
  · exact decode_all_ones _ h1 h2 c hc

/-- Instance of `constructor_safe_state`: a first construction on the static initialisers. -/
theorem constructor_safe_state_witness :
    (staticInit.WF) ∧
    (∀ c, c < 6 →
      get_motor_brakeM
          (WickedMotorShield_new { shield := staticInit, pins := staticPins, trace := [] }
            0).shield c = 1 ∧
        get_motor_directionM
          (WickedMotorShield_new { shield := staticInit, pins := staticPins, trace := [] }
            0).shield c = 1) :=
  ⟨by decide,
    (constructor_safe_state { shield := staticInit, pins := staticPins, trace := [] } 0
      (by decide)).2.2.2.2 rfl rfl⟩

/-- C15 fails for a prior state with a released channel: construct on the static
initialisers, release `M1` with `Wicked_DCMotor::setBrake`, construct again; `M1` still
decodes as unbraked, not as hard brake. -/
theorem constructor_after_release_not_braked :
    (Wicked_DCMotor.setBrake { motor_number := 0 }
        (WickedMotorShield_new { shield := staticInit, pins := staticPins, trace := [] } 0)
        BRAKE_OFF).shield.WF ∧
    ¬ (get_motor_brakeM
        (WickedMotorShield_new
          (Wicked_DCMotor.setBrake { motor_number := 0 }
            (WickedMotorShield_new { shield := staticInit, pins := staticPins, trace := [] } 0)
            BRAKE_OFF) 0).shield 0 = 1) := by
  decide

/-- C16, as the code has it. For every prior board, construction with
`use_alternate_pins = USE_ALTERNATE_PINS` sets the five pin members to the alternate table
(0, 3, 11, 8, 4); construction with any other value leaves the pin members as they were, so
they are the standard table (12, 4, 8, 11, 3) when they were it before, as after the static
initialisers; the PWM pins of `M2..M5` are the constants 9, 5, 10, 6. -/
theorem pin_table_selection (b : Board) (flag : Nat) :
    (flag = USE_ALTERNATE_PINS →
      (WickedMotorShield_new b flag).pins =
        { SERIAL_DATA_PIN := 0, RCIN1_PIN := 3, RCIN2_PIN := 11, M1_PWM_PIN := 8,
          M6_PWM_PIN := 4 }) ∧
    (flag ≠ USE_ALTERNATE_PINS → (WickedMotorShield_new b flag).pins = b.pins) ∧
    (flag ≠ USE_ALTERNATE_PINS → b.pins = staticPins →
      (WickedMotorShield_new b flag).pins =
        { SERIAL_DATA_PIN := 12, RCIN1_PIN := 4, RCIN2_PIN := 8, M1_PWM_PIN := 11,
          M6_PWM_PIN := 3 }) ∧
    (M2_PWM_PIN = 9 ∧ M3_PWM_PIN = 5 ∧ M4_PWM_PIN = 10 ∧ M5_PWM_PIN = 6) := by
  refine ⟨fun h => ?_, fun h => ?_, fun h hp => ?_, by decide⟩
  · simp [WickedMotorShield_new, load_shift_register, h]
  · simp [WickedMotorShield_new, load_shift_register, h]
  · simp [WickedMotorShield_new, load_shift_register, h, hp, staticPins]

/-- Instance of `pin_table_selection`: construction with flag 0 on `sampleBoard`. -/
theorem pin_table_selection_witness :
    (0 ≠ USE_ALTERNATE_PINS ∧ sampleBoard.pins = staticPins) ∧
    (WickedMotorShield_new sampleBoard 0).pins =
      { SERIAL_DATA_PIN := 12, RCIN1_PIN := 4, RCIN2_PIN := 8, M1_PWM_PIN := 11,
        M6_PWM_PIN := 3 } :=
  ⟨⟨by decide, by decide⟩,
    (pin_table_selection sampleBoard 0).2.2.1 (by decide) (by decide)⟩

/-- C16 fails for prior pins left by an alternate construction: construct with
`USE_ALTERNATE_PINS`, then construct with 0; the pins are still the alternate table, not
the standard one. -/
theorem standard_construction_keeps_alternate_pins :
    ¬ ((WickedMotorShield_new
        (WickedMotorShield_new { shield := staticInit, pins := staticPins, trace := [] }
          USE_ALTERNATE_PINS) 0).pins =
      { SERIAL_DATA_PIN := 12, RCIN1_PIN := 4, RCIN2_PIN := 8, M1_PWM_PIN := 11,
        M6_PWM_PIN := 3 }) := by
  decide

/-! ## Soft brake, mode switches, release -/

theorem runBrakeTypes_invariant (c : Nat) (hc : c < 6) (types : List Nat) :
    ∀ s : Shield, (∀ t ∈ types, t = BRAKE_SOFT ∨ t = BRAKE_HARD) →
      0 < get_motor_brakeM s c →
      0 < get_motor_brakeM (runBrakeTypes c s types) c ∧
        (runBrakeTypes c s types).old_dir = s.old_dir := by
  induction types with
  | nil => intro s _ hb; exact ⟨hb, rfl⟩
  | cons t rest ih =>
    intro s ht hb
    have htt : t = BRAKE_SOFT ∨ t = BRAKE_HARD := ht t (List.mem_cons_self _ _)
    have h1 : 0 < get_motor_brakeM (setBrakeData s c t) c := by
      rcases htt with rfl | rfl
      · rw [(soft_decodes s c hc).1]; decide
      · rw [(hard_decodes s c hc).1]; decide
    have h2 := switch_keeps_old_dir s c t hc hb htt
    obtain ⟨h3, h4⟩ := ih (setBrakeData s c t)
      (fun u hu => ht u (List.mem_cons_of_mem _ hu)) h1
    exact ⟨h3, h4.trans h2⟩

/-- C12, as the code has it. On a channel `c < 6` of a well-formed state,
`setBrakeData c BRAKE_SOFT`, then any number of soft or hard brake calls, then
`setBrakeData c BRAKE_OFF`: when `c` was unbraked before the first call its direction bit
ends equal to the value it had before that call; when `c` was already braked its direction
bit ends as 1 if `old_dir[c]` was clockwise and as 0 otherwise. -/
theorem soft_cycle_restores (s : Shield) (c : Nat) (types : List Nat) (hc : c < 6)
    (hwf : s.WF) (ht : ∀ t ∈ types, t = BRAKE_SOFT ∨ t = BRAKE_HARD) :
    (get_motor_brakeM s c = 0 →
      get_motor_directionM
          (setBrakeData (runBrakeTypes c (setBrakeData s c BRAKE_SOFT) types) c BRAKE_OFF) c =
        get_motor_directionM s c) ∧
    (get_motor_brakeM s c = 1 →
      get_motor_directionM
          (setBrakeData (runBrakeTypes c (setBrakeData s c BRAKE_SOFT) types) c BRAKE_OFF) c =
        if s.oldDir c = DIR_CW then 1 else 0) := by
  have hbr : 0 < get_motor_brakeM (setBrakeData s c BRAKE_SOFT) c := by
    rw [(soft_decodes s c hc).1]; decide
  obtain ⟨hb2, hold⟩ := runBrakeTypes_invariant c hc types _ ht hbr
  obtain ⟨hdir, _⟩ := release_braked _ c hc hb2
  have hold2 : (runBrakeTypes c (setBrakeData s c BRAKE_SOFT) types).oldDir c =
      (setBrakeData s c BRAKE_SOFT).oldDir c := by
    unfold Shield.oldDir; rw [hold]
  rw [hdir, hold2]
  refine ⟨fun hb => ?_, fun hb => ?_⟩
  · rw [engage_captures s c _ hc hwf.2.2.1 hb (Or.inl rfl)]
    have hle : get_motor_directionM s c ≤ 1 := by
      rw [get_motor_directionM_eq hc]; exact filter_mask_le_one _ _
    split_ifs with h
    · exact h.symm
    · omega
  · have : (setBrakeData s c BRAKE_SOFT).oldDir c = s.oldDir c := by
      unfold Shield.oldDir
      rw [switch_keeps_old_dir s c _ hc (by omega) (Or.inl rfl)]
    rw [this]; rfl

/-- Instance of `soft_cycle_restores`: the unbraked counter-clockwise `M4` of
`sampleState` with the switches hard, soft, hard in between. -/
theorem soft_cycle_restores_witness :
    (3 < 6 ∧ sampleState.WF ∧
      (∀ t ∈ [BRAKE_HARD, BRAKE_SOFT, BRAKE_HARD], t = BRAKE_SOFT ∨ t = BRAKE_HARD) ∧
      get_motor_brakeM sampleState 3 = 0) ∧
    get_motor_directionM
        (setBrakeData
          (runBrakeTypes 3 (setBrakeData sampleState 3 BRAKE_SOFT)
            [BRAKE_HARD, BRAKE_SOFT, BRAKE_HARD]) 3 BRAKE_OFF) 3 =
      get_motor_directionM sampleState 3 :=
  ⟨⟨by decide, by decide, by decide, by decide⟩,
    (soft_cycle_restores sampleState 3 [BRAKE_HARD, BRAKE_SOFT, BRAKE_HARD] (by decide)
      (by decide) (by decide)).1 (by decide)⟩

/-- C12 fails on an already braked channel: from the startup state release `M2`, set it
counter-clockwise and brake it hard (direction bit 1, `old_dir[1]` counter-clockwise); a
soft brake followed by the release then leaves the direction bit 0, not the 1 it had before
the soft brake. -/
theorem soft_cycle_from_braked_differs :
    (setBrakeData (setDirectionData (setBrakeData startupState 1 BRAKE_OFF) 1 DIR_CCW) 1
        BRAKE_HARD).WF ∧
    get_motor_directionM
        (setBrakeData (setDirectionData (setBrakeData startupState 1 BRAKE_OFF) 1 DIR_CCW) 1
          BRAKE_HARD) 1 = 1 ∧
    get_motor_directionM
        (setBrakeData
          (runBrakeTypes 1
            (setBrakeData
              (setBrakeData (setDirectionData (setBrakeData startupState 1 BRAKE_OFF) 1 DIR_CCW)
                1 BRAKE_HARD) 1 BRAKE_SOFT) []) 1 BRAKE_OFF) 1 = 0 := by
  decide

/-! ## Well-formedness is preserved -/

theorem WF_write (s : Shield) (c v : Nat) (l : List Nat) (hwf : s.WF) (hl : l.length = 6)
    (hx : ∀ x ∈ l, x < 256) (hv : v < 256) :
    (set_shift_register_value { s with old_dir := l } c v).WF := by
  obtain ⟨h1, h2, _, _⟩ := hwf
  unfold set_shift_register_value
  split_ifs
  · exact ⟨h1, hv, hl, hx⟩
  · exact ⟨hv, h2, hl, hx⟩

theorem WF_set_old_dir (s : Shield) (c x : Nat) (hwf : s.WF) (hx : x < 256) :
    (s.old_dir.set c x).length = 6 ∧ ∀ y ∈ s.old_dir.set c x, y < 256 := by
  refine ⟨by rw [List.length_set]; exact hwf.2.2.1, fun y hy => ?_⟩
  rcases List.mem_or_eq_of_mem_set hy with h | h
  · exact hwf.2.2.2 y h
  · rw [h]; exact hx

theorem WF_setBrakeData (s : Shield) (c t : Nat) (hwf : s.WF) : (setBrakeData s c t).WF := by
  by_cases hc6 : 6 ≤ c
  · rw [setBrakeData_bad s c t hc6]; exact hwf
  have hc : c < 6 := Nat.lt_of_not_le hc6
  obtain ⟨_, hdlt, _, hblt, _, _⟩ := mask_facts hc
  have hv : ∀ bop dop, apply_mask (apply_mask (get_shift_register_value s c) (brakeMask c) bop)
      (dirMask c) dop < 256 := fun bop dop =>
    apply_mask_lt _ _ _ (apply_mask_lt _ _ _ (get_lt_of_WF hwf c) hblt) hdlt
  have hdir : get_motor_directionM s c < 256 := by
    rw [get_motor_directionM_eq hc]
    exact lt_of_le_of_lt (filter_mask_le_one _ _) (by decide)
  have hset := WF_set_old_dir s c (get_motor_directionM s c) hwf hdir
  by_cases ht : 3 ≤ t
  · rw [setBrakeData_other s c t hc ht]; exact hwf
  · have ht3 : t < 3 := Nat.lt_of_not_le ht
    rcases braked_or_not s c with hb | hb
    · interval_cases t
      · rw [show (0 : Nat) = BRAKE_OFF from rfl, setBrakeData_off_unbraked s c hc hb]
        exact WF_write s c _ s.old_dir hwf hwf.2.2.1 hwf.2.2.2 (hv _ _)
      · rw [show (1 : Nat) = BRAKE_HARD from rfl, setBrakeData_hard_unbraked s c hc hb]
        exact WF_write s c _ _ hwf hset.1 hset.2 (hv _ _)
      · rw [show (2 : Nat) = BRAKE_SOFT from rfl, setBrakeData_soft_unbraked s c hc hb]
        exact WF_write s c _ _ hwf hset.1 hset.2 (hv _ _)
    · interval_cases t
      · rw [show (0 : Nat) = BRAKE_OFF from rfl, setBrakeData_off_braked s c hc hb]
        exact WF_write s c _ s.old_dir hwf hwf.2.2.1 hwf.2.2.2 (hv _ _)
      · rw [show (1 : Nat) = BRAKE_HARD from rfl, setBrakeData_hard_braked s c hc hb]
        exact WF_write s c _ s.old_dir hwf hwf.2.2.1 hwf.2.2.2 (hv _ _)
      · rw [show (2 : Nat) = BRAKE_SOFT from rfl, setBrakeData_soft_braked s c hc hb]
        exact WF_write s c _ s.old_dir hwf hwf.2.2.1 hwf.2.2.2 (hv _ _)

theorem WF_setDirectionData (s : Shield) (c d : Nat) (hwf : s.WF) :
    (setDirectionData s c d).WF := by
  by_cases hc6 : 6 ≤ c
  · rw [setDirectionData_bad s c d hc6]; exact hwf
  have hc : c < 6 := Nat.lt_of_not_le hc6
  obtain ⟨_, hdlt, _, _, _, _⟩ := mask_facts hc
  have hv : ∀ op, apply_mask (get_shift_register_value s c) (dirMask c) op < 256 :=
    fun op => apply_mask_lt _ _ _ (get_lt_of_WF hwf c) hdlt
  by_cases hd : 2 ≤ d
  · rw [setDirectionData_other s c d hd]; exact hwf
  · have hd2 : d < 2 := Nat.lt_of_not_le hd
    rcases braked_or_not s c with hb | hb
    · interval_cases d
      · rw [show (0 : Nat) = DIR_CCW from rfl, setDirectionData_ccw s c hc hb]
        have hset := WF_set_old_dir s c 0 hwf (by decide)
        exact WF_write s c _ _ hwf hset.1 hset.2 (hv _)
      · rw [show (1 : Nat) = DIR_CW from rfl, setDirectionData_cw s c hc hb]
        have hset := WF_set_old_dir s c 1 hwf (by decide)
        exact WF_write s c _ _ hwf hset.1 hset.2 (hv _)
    · rw [setDirectionData_braked s c d hb]; exact hwf

/-! ## The code refines the channel state machine of the specification -/

/-- A direction set on an unbraked channel is decoded back and the channel stays unbraked. -/
theorem setDirection_unbraked_decodes (s : Shield) (c : Nat) (d : Direction) (hc : c < 6)
    (hb : get_motor_brakeM s c = 0) :
    get_motor_brakeM (setDirectionData s c d.code) c = 0 ∧
      get_motor_directionM (setDirectionData s c d.code) c = d.code := by
  obtain ⟨hd0, hdlt, _, hblt, hdb, _⟩ := mask_facts hc
  have hb' : filter_mask (get_shift_register_value s c) (brakeMask c) = 0 := by
    rw [← get_motor_brakeM_eq hc]; exact hb
  cases d
  · rw [show Direction.CW.code = DIR_CW from rfl, setDirectionData_cw s c hc hb,
      dir_after_set hc, brake_after_set hc, filter_apply_set _ _ hd0,
      filter_apply_disjoint _ _ _ _ hdb hblt]
    exact ⟨hb', rfl⟩
  · rw [show Direction.CCW.code = DIR_CCW from rfl, setDirectionData_ccw s c hc hb,
      dir_after_set hc, brake_after_set hc, filter_apply_clear _ _ hdlt,
      filter_apply_disjoint _ _ _ _ hdb hblt]
    exact ⟨hb', rfl⟩

theorem restored_bit (saved : Direction) : (if saved.code = 1 then 1 else 0) = saved.code := by
  cases saved <;> rfl

theorem represents_congr (s t : Shield) (c : Nat) (st : SpecChannel)
    (hb : get_motor_brakeM t c = get_motor_brakeM s c)
    (hd : get_motor_directionM t c = get_motor_directionM s c)
    (ho : t.oldDir c = s.oldDir c) (h : Represents s c st) : Represents t c st := by
  cases st <;> simp only [Represents, hb, hd, ho] at h ⊢ <;> exact h

theorem represents_setDirection (s : Shield) (c : Nat) (d : Direction) (st : SpecChannel)
    (hc : c < 6) (h : Represents s c st) :
    Represents (setDirectionData s c d.code) c (st.setDirection d) := by
  cases st with
  | Unbraked d0 => exact setDirection_unbraked_decodes s c d hc h.1
  | BrakedSoft saved =>
    have hb : 0 < get_motor_brakeM s c := by rw [h.1]; decide
    rw [setDirectionData_braked s c _ hb]; exact h
  | BrakedHard saved =>
    have hb : 0 < get_motor_brakeM s c := by rw [h.1]; decide
    rw [setDirectionData_braked s c _ hb]; exact h

theorem represents_release (s : Shield) (c : Nat) (saved : Direction) (hc : c < 6)
    (hb : get_motor_brakeM s c = 1) (ho : s.oldDir c = saved.code) :
    Represents (setBrakeData s c BRAKE_OFF) c (SpecChannel.Unbraked saved) := by
  obtain ⟨h1, h2⟩ := release_braked s c hc (by omega)
  exact ⟨h2, by rw [h1, ho]; exact restored_bit saved⟩

theorem oldDir_after_switch (s : Shield) (c t : Nat) (hc : c < 6)
    (hb : get_motor_brakeM s c = 1) (ht : t = BRAKE_SOFT ∨ t = BRAKE_HARD) :
    (setBrakeData s c t).oldDir c = s.oldDir c := by
  unfold Shield.oldDir
  rw [switch_keeps_old_dir s c t hc (by omega) ht]

theorem represents_setBrake (s : Shield) (c : Nat) (m : BrakeMode) (st : SpecChannel)
    (hc : c < 6) (hwf : s.WF) (h : Represents s c st) :
    Represents (setBrakeData s c m.code) c (st.setBrake m) := by
  have hlen := hwf.2.2.1
  cases m with
  | Off =>
    cases st with
    | Unbraked d =>
      rw [show BrakeMode.Off.code = BRAKE_OFF from rfl, release_unbraked s c hc hwf h.1]
      exact h
    | BrakedSoft saved => exact represents_release s c saved hc h.1 h.2.2
    | BrakedHard saved => exact represents_release s c saved hc h.1 h.2.2
  | Soft =>
    obtain ⟨h1, h2⟩ := soft_decodes s c hc
    cases st with
    | Unbraked d =>
      exact ⟨h1, h2, (engage_captures s c _ hc hlen h.1 (Or.inl rfl)).trans h.2⟩
    | BrakedSoft saved =>
      exact ⟨h1, h2, (oldDir_after_switch s c _ hc h.1 (Or.inl rfl)).trans h.2.2⟩
    | BrakedHard saved =>
      exact ⟨h1, h2, (oldDir_after_switch s c _ hc h.1 (Or.inl rfl)).trans h.2.2⟩
  | Hard =>
    obtain ⟨h1, h2⟩ := hard_decodes s c hc
    cases st with
    | Unbraked d =>
      exact ⟨h1, h2, (engage_captures s c _ hc hlen h.1 (Or.inr rfl)).trans h.2⟩
    | BrakedSoft saved =>
      exact ⟨h1, h2, (oldDir_after_switch s c _ hc h.1 (Or.inr rfl)).trans h.2.2⟩
    | BrakedHard saved =>
      exact ⟨h1, h2, (oldDir_after_switch s c _ hc h.1 (Or.inr rfl)).trans h.2.2⟩

theorem represents_frame (s t : Shield) (k c : Nat) (st : SpecChannel) (hne : c ≠ k)
    (hf : ChannelFrame k s t) (h : Represents s c st) : Represents t c st :=
  represents_congr s t c st (hf.2.2.2 c hne).2 (hf.2.2.2 c hne).1 (hf.2.2.1 c hne) h

/-- One command keeps the code in step with the specification on every channel. -/
theorem represents_step (s : Shield) (a : Fin 6 → SpecChannel) (cmd : Command) (hwf : s.WF)
    (h : ∀ c : Fin 6, Represents s c.val (a c)) :
    ∀ c : Fin 6, Represents (cmd.run s) c.val (specStep a cmd c) := by
  intro c
  cases cmd with
  | setDirection k d =>
    by_cases hck : c = k
    · subst hck
      simp only [specStep, Function.update_same]
      exact represents_setDirection s c.val d (a c) c.isLt (h c)
    · simp only [specStep, Function.update_noteq hck]
      exact represents_frame s _ k.val c.val (a c) (fun e => hck (Fin.ext e))
        (channelFrame_setDirectionData s k.val d.code k.isLt hwf) (h c)
  | setBrake k m =>
    by_cases hck : c = k
    · subst hck
      simp only [specStep, Function.update_same]
      exact represents_setBrake s c.val m (a c) c.isLt hwf (h c)
    · simp only [specStep, Function.update_noteq hck]
      exact represents_frame s _ k.val c.val (a c) (fun e => hck (Fin.ext e))
        (channelFrame_setBrakeData s k.val m.code k.isLt hwf) (h c)

theorem WF_run (s : Shield) (cmd : Command) (hwf : s.WF) : (cmd.run s).WF := by
  cases cmd with
  | setDirection k d => exact WF_setDirectionData s k.val d.code hwf
  | setBrake k m => exact WF_setBrakeData s k.val m.code hwf

theorem represents_run (cmds : List Command) :
    ∀ (s : Shield) (a : Fin 6 → SpecChannel), s.WF →
      (∀ c : Fin 6, Represents s c.val (a c)) →
      ∀ c : Fin 6, Represents (runCommands s cmds) c.val (specRun a cmds c) := by
  induction cmds with
  | nil => intro s a _ h; exact h
  | cons cmd rest ih =>
    intro s a hwf h
    exact ih (cmd.run s) (specStep a cmd) (WF_run s cmd hwf) (represents_step s a cmd hwf h)

theorem represents_startup : ∀ c : Fin 6, Represents startupState c.val (specStartup c) := by
  have h : ∀ c : Fin 6, get_motor_brakeM startupState c.val = 1 ∧
      get_motor_directionM startupState c.val = 1 ∧
      startupState.oldDir c.val = Direction.CW.code := by decide
  exact h

theorem represents_decode (s : Shield) (c : Nat) (st : SpecChannel) (h : Represents s c st) :
    decodeChannel s c = st.decode := by
  cases st with
  | Unbraked d => exact Prod.ext h.1 h.2
  | BrakedSoft saved => exact Prod.ext h.1 h.2.1
  | BrakedHard saved => exact Prod.ext h.1 h.2.1

/-- C11. Transition-table refinement: run any finite sequence of valid commands
(`set_direction` with clockwise or counter-clockwise, `set_brake` with off, soft or hard,
on channels `0..5`) with the code from the startup state and with the channel state machine
of the specification from all channels hard braked with saved direction clockwise; after
each command, that is after every prefix `cmds.take n`, the pair (brake bit, direction bit)
decoded for every channel is the pair of the specification: `(0, d)` for `Unbraked d`,
`(1, 0)` for `BrakedSoft`, `(1, 1)` for `BrakedHard`. -/
theorem transition_table_refinement (cmds : List Command) (n : Nat) (c : Fin 6) :
    decodeChannel (runCommands startupState (cmds.take n)) c.val =
      (specRun specStartup (cmds.take n) c).decode :=
  represents_decode _ _ _
    (represents_run (cmds.take n) startupState specStartup (by decide) represents_startup c)

/-! ## Laws of the codec -/

theorem apply_clear_testBit (v m i : Nat) (hv : v < 256) :
    (apply_mask v m OPERATION_CLEAR).testBit i = (v.testBit i && !m.testBit i) := by
  unfold apply_mask
  simp only [if_true, Nat.testBit_and, Nat.testBit_xor, testBit_255]
  by_cases h8 : i < 8
  · cases v.testBit i <;> cases m.testBit i <;> simp [h8]
  · simp [testBit_false_of_lt_256 hv (Nat.le_of_not_lt h8)]

theorem apply_mask_other (v m op : Nat) (h0 : op ≠ 0) (h1 : op ≠ 1) : apply_mask v m op = v := by
  simp [apply_mask, OPERATION_CLEAR, OPERATION_SET, h0, h1]

/-- C24. Codec laws, for every byte `v`, every byte mask `m` and every operation code:
`apply_mask` with `OPERATION_SET` is `v ||| m`; with `OPERATION_CLEAR` it is `v` and not `m`
bit by bit; both leave every bit outside `m` as it was; with `OPERATION_NONE`, or any code
other than 0 and 1, it returns `v`; `filter_mask v m` is 1 when `v &&& m` is not zero and 0
otherwise; so filtering through `m` gives 1 after a set with `m ≠ 0` and 0 after a clear. -/
theorem codec_laws (v m op : Nat) (hv : v < 256) (hm : m < 256) :
    apply_mask v m OPERATION_SET = v ||| m ∧
    (∀ i, (apply_mask v m OPERATION_CLEAR).testBit i = (v.testBit i && !m.testBit i)) ∧
    (∀ i, m.testBit i = false →
      (apply_mask v m OPERATION_SET).testBit i = v.testBit i ∧
        (apply_mask v m OPERATION_CLEAR).testBit i = v.testBit i) ∧
    apply_mask v m OPERATION_NONE = v ∧
    (op ≠ 0 → op ≠ 1 → apply_mask v m op = v) ∧
    (filter_mask v m = 1 ↔ v &&& m ≠ 0) ∧
    (filter_mask v m = 0 ↔ v &&& m = 0) ∧
    (m ≠ 0 → filter_mask (apply_mask v m OPERATION_SET) m = 1) ∧
    filter_mask (apply_mask v m OPERATION_CLEAR) m = 0 := by
  refine ⟨rfl, fun i => apply_clear_testBit v m i hv,
    fun i hi => ⟨apply_mask_testBit v m _ i hv hi, apply_mask_testBit v m _ i hv hi⟩, rfl,
    apply_mask_other v m op, ?_, ?_, fun h => filter_apply_set v m h,
    filter_apply_clear v m hm⟩
  · unfold filter_mask; split_ifs with h <;> simp [h]
  · unfold filter_mask; split_ifs with h <;> simp [h]

/-- Instance of `codec_laws`: the byte `0x2D`, the mask `0x20`, the operation code 7. -/
theorem codec_laws_witness :
    (0x2D < 256 ∧ 0x20 < 256) ∧
    (apply_mask 0x2D 0x20 OPERATION_SET = 0x2D ||| 0x20 ∧
      filter_mask (apply_mask 0x2D 0x20 OPERATION_CLEAR) 0x20 = 0) :=
  ⟨⟨by decide, by decide⟩,
    (codec_laws 0x2D 0x20 7 (by decide) (by decide)).1,
    (codec_laws 0x2D 0x20 7 (by decide) (by decide)).2.2.2.2.2.2.2.2⟩

/-! ## Saved direction of the unbraked channels -/

theorem old_dir_setDirectionData (s : Shield) (c d : Nat) :
    (setDirectionData s c d).old_dir = s.old_dir ∨
      ∃ x, x ≤ 1 ∧ (setDirectionData s c d).old_dir = s.old_dir.set c x := by
  by_cases hc6 : 6 ≤ c
  · rw [setDirectionData_bad s c d hc6]; exact Or.inl rfl
  have hc : c < 6 := Nat.lt_of_not_le hc6
  by_cases hd : 2 ≤ d
  · rw [setDirectionData_other s c d hd]; exact Or.inl rfl
  have hd2 : d < 2 := Nat.lt_of_not_le hd
  rcases braked_or_not s c with hb | hb
  · interval_cases d
    · rw [show (0 : Nat) = DIR_CCW from rfl, setDirectionData_ccw s c hc hb, old_dir_set_reg]
      exact Or.inr ⟨0, by decide, rfl⟩
    · rw [show (1 : Nat) = DIR_CW from rfl, setDirectionData_cw s c hc hb, old_dir_set_reg]
      exact Or.inr ⟨1, by decide, rfl⟩
  · rw [setDirectionData_braked s c d hb]; exact Or.inl rfl

theorem old_dir_setBrakeData (s : Shield) (c t : Nat) :
    (setBrakeData s c t).old_dir = s.old_dir ∨
      ∃ x, x ≤ 1 ∧ (setBrakeData s c t).old_dir = s.old_dir.set c x := by
  by_cases hc6 : 6 ≤ c
  · rw [setBrakeData_bad s c t hc6]; exact Or.inl rfl
  have hc : c < 6 := Nat.lt_of_not_le hc6
  have hle : get_motor_directionM s c ≤ 1 := by
    rw [get_motor_directionM_eq hc]; exact filter_mask_le_one _ _
  by_cases ht : 3 ≤ t
  · rw [setBrakeData_other s c t hc ht]; exact Or.inl rfl
  have ht3 : t < 3 := Nat.lt_of_not_le ht
  rcases braked_or_not s c with hb | hb
  · interval_cases t
    · rw [show (0 : Nat) = BRAKE_OFF from rfl, setBrakeData_off_unbraked s c hc hb,
        old_dir_set_reg]
      exact Or.inl rfl
    · rw [show (1 : Nat) = BRAKE_HARD from rfl, setBrakeData_hard_unbraked s c hc hb,
        old_dir_set_reg]
      exact Or.inr ⟨_, hle, rfl⟩
    · rw [show (2 : Nat) = BRAKE_SOFT from rfl, setBrakeData_soft_unbraked s c hc hb,
        old_dir_set_reg]
      exact Or.inr ⟨_, hle, rfl⟩
  · interval_cases t
    · rw [show (0 : Nat) = BRAKE_OFF from rfl, setBrakeData_off_braked s c hc hb,
        old_dir_set_reg]
      exact Or.inl rfl
    · rw [show (1 : Nat) = BRAKE_HARD from rfl, setBrakeData_hard_braked s c hc hb,
        old_dir_set_reg]
      exact Or.inl rfl
    · rw [show (2 : Nat) = BRAKE_SOFT from rfl, setBrakeData_soft_braked s c hc hb,
        old_dir_set_reg]
      exact Or.inl rfl

theorem entries_le_one_of_set (l : List Nat) (m : List Nat) (c : Nat)
    (hl : ∀ x ∈ l, x ≤ 1) (h : m = l ∨ ∃ x, x ≤ 1 ∧ m = l.set c x) : ∀ y ∈ m, y ≤ 1 := by
  intro y hy
  rcases h with h | ⟨x, hx, h⟩
  · rw [h] at hy; exact hl y hy
  · rw [h] at hy
    rcases List.mem_or_eq_of_mem_set hy with h1 | h1
    · exact hl y h1
    · rw [h1]; exact hx

theorem oldDir_le_one (s : Shield) (c : Nat) (hl : ∀ x ∈ s.old_dir, x ≤ 1) : s.oldDir c ≤ 1 := by
  unfold Shield.oldDir
  rw [List.getD_eq_getElem?_getD]
  cases h : s.old_dir[c]? with
  | none => simp
  | some x => simpa using hl x (List.getElem?_mem h)

theorem oldDir_setDirectionData_unbraked (s : Shield) (c : Nat) (d : Direction) (hc : c < 6)
    (hlen : s.old_dir.length = 6) (hb : get_motor_brakeM s c = 0) :
    (setDirectionData s c d.code).oldDir c = d.code := by
  have hl : c < s.old_dir.length := by omega
  cases d
  · rw [show Direction.CW.code = DIR_CW from rfl, setDirectionData_cw s c hc hb, oldDir_set_reg]
    exact getD_set_same _ _ _ hl
  · rw [show Direction.CCW.code = DIR_CCW from rfl, setDirectionData_ccw s c hc hb,
      oldDir_set_reg]
    exact getD_set_same _ _ _ hl

theorem savedAgrees_setDirectionData (s : Shield) (c d : Nat) (hc : c < 6) (hwf : s.WF)
    (h : SavedAgrees s c) : SavedAgrees (setDirectionData s c d) c := by
  by_cases hd : 2 ≤ d
  · rw [setDirectionData_other s c d hd]; exact h
  have hd2 : d < 2 := Nat.lt_of_not_le hd
  rcases braked_or_not s c with hb | hb
  · intro _
    interval_cases d
    · exact (oldDir_setDirectionData_unbraked s c Direction.CCW hc hwf.2.2.1 hb).trans
        (setDirection_unbraked_decodes s c Direction.CCW hc hb).2.symm
    · exact (oldDir_setDirectionData_unbraked s c Direction.CW hc hwf.2.2.1 hb).trans
        (setDirection_unbraked_decodes s c Direction.CW hc hb).2.symm
  · rw [setDirectionData_braked s c d hb]; exact h

theorem savedAgrees_setBrakeData (s : Shield) (c t : Nat) (hc : c < 6) (hwf : s.WF)
    (hle : s.oldDir c ≤ 1) (h : SavedAgrees s c) : SavedAgrees (setBrakeData s c t) c := by
  by_cases ht : 3 ≤ t
  · rw [setBrakeData_other s c t hc ht]; exact h
  have ht3 : t < 3 := Nat.lt_of_not_le ht
  interval_cases t
  · rcases braked_or_not s c with hb | hb
    · rw [show (0 : Nat) = BRAKE_OFF from rfl, release_unbraked s c hc hwf hb]; exact h
    · intro _
      rw [show (0 : Nat) = BRAKE_OFF from rfl, (release_braked s c hc hb).1,
        setBrakeData_off_braked s c hc hb, oldDir_set_reg]
      split_ifs with h1
      · exact h1
      · omega
  · intro hb
    rw [show (1 : Nat) = BRAKE_HARD from rfl, (hard_decodes s c hc).1] at hb
    exact absurd hb (by decide)
  · intro hb
    rw [show (2 : Nat) = BRAKE_SOFT from rfl, (soft_decodes s c hc).1] at hb
    exact absurd hb (by decide)

theorem savedAgrees_frame (s t : Shield) (k c : Nat) (hne : c ≠ k) (hf : ChannelFrame k s t)
    (h : SavedAgrees s c) : SavedAgrees t c := by
  intro hb
  rw [(hf.2.2.2 c hne).2] at hb
  rw [hf.2.2.1 c hne, (hf.2.2.2 c hne).1]
  exact h hb

/-- One raw call keeps the state well formed, the entries of `old_dir` at most 1 and the
saved direction of every unbraked channel equal to its direction bit. -/
theorem rawCall_invariant (s : Shield) (call : RawCall) (hwf : s.WF)
    (hle : ∀ x ∈ s.old_dir, x ≤ 1) (h : ∀ c, c < 6 → SavedAgrees s c) :
    (call.run s).WF ∧ (∀ x ∈ (call.run s).old_dir, x ≤ 1) ∧
      ∀ c, c < 6 → SavedAgrees (call.run s) c := by
  cases call with
  | setDirection k d =>
    refine ⟨WF_setDirectionData s k d hwf,
      entries_le_one_of_set _ _ k hle (old_dir_setDirectionData s k d), fun c hc => ?_⟩
    by_cases hk6 : 6 ≤ k
    · rw [show (RawCall.setDirection k d).run s = setDirectionData s k d from rfl,
        setDirectionData_bad s k d hk6]
      exact h c hc
    by_cases hck : c = k
    · subst hck; exact savedAgrees_setDirectionData s c d hc hwf (h c hc)
    · exact savedAgrees_frame s _ k c hck
        (channelFrame_setDirectionData s k d (Nat.lt_of_not_le hk6) hwf) (h c hc)
  | setBrake k t =>
    refine ⟨WF_setBrakeData s k t hwf,
      entries_le_one_of_set _ _ k hle (old_dir_setBrakeData s k t), fun c hc => ?_⟩
    by_cases hk6 : 6 ≤ k
    · rw [show (RawCall.setBrake k t).run s = setBrakeData s k t from rfl,
        setBrakeData_bad s k t hk6]
      exact h c hc
    by_cases hck : c = k
    · subst hck
      exact savedAgrees_setBrakeData s c t hc hwf (oldDir_le_one s c hle) (h c hc)
    · exact savedAgrees_frame s _ k c hck
        (channelFrame_setBrakeData s k t (Nat.lt_of_not_le hk6) hwf) (h c hc)

theorem runRawCalls_invariant (calls : List RawCall) :
    ∀ s : Shield, s.WF → (∀ x ∈ s.old_dir, x ≤ 1) → (∀ c, c < 6 → SavedAgrees s c) →
      (runRawCalls s calls).WF ∧ (∀ x ∈ (runRawCalls s calls).old_dir, x ≤ 1) ∧
        ∀ c, c < 6 → SavedAgrees (runRawCalls s calls) c := by
  induction calls with
  | nil => intro s hwf hle h; exact ⟨hwf, hle, h⟩
  | cons call rest ih =>
    intro s hwf hle h
    obtain ⟨h1, h2, h3⟩ := rawCall_invariant s call hwf hle h
    exact ih (call.run s) h1 h2 h3

theorem startup_invariant :
    startupState.WF ∧ (∀ x ∈ startupState.old_dir, x ≤ 1) ∧
      ∀ c, c < 6 → SavedAgrees startupState c := by
  refine ⟨by decide, by decide, fun c hc hb => ?_⟩
  rw [(decode_all_ones startupState rfl rfl c hc).1] at hb
  exact absurd hb (by decide)

/-- C25. In every state reached from the startup state (images `0xFF`, `old_dir` all
clockwise) by a finite sequence of `setDirectionData` and `setBrakeData` calls with
arbitrary channel, direction and brake type arguments, every channel `c` in `0..5` that is
unbraked has `old_dir[c]` equal to its decoded direction bit, and every entry of `old_dir`
is 0 or 1. -/
theorem saved_direction_invariant (calls : List RawCall) (c : Fin 6) :
    (get_motor_brakeM (runRawCalls startupState calls) c.val = 0 →
      (runRawCalls startupState calls).oldDir c.val =
        get_motor_directionM (runRawCalls startupState calls) c.val) ∧
    ∀ x ∈ (runRawCalls startupState calls).old_dir, x = 0 ∨ x = 1 := by
  obtain ⟨h0, h1, h2⟩ := startup_invariant
  obtain ⟨_, hle, hs⟩ := runRawCalls_invariant calls startupState h0 h1 h2
  refine ⟨hs c.val c.isLt, fun x hx => ?_⟩
  have := hle x hx
  omega

/-! ## The phase table of the stepper -/

/-- Two directions set one after the other on two different unbraked coils are both
decoded back, and both coils stay unbraked. -/
theorem setDirection_pair (s : Shield) (m1 m2 : Nat) (d1 d2 : Direction) (hwf : s.WF)
    (h1 : m1 < 6) (h2 : m2 < 6) (hne : m1 ≠ m2) (hb1 : get_motor_brakeM s m1 = 0)
    (hb2 : get_motor_brakeM s m2 = 0) :
    get_motor_directionM (setDirectionData (setDirectionData s m1 d1.code) m2 d2.code) m1 =
        d1.code ∧
      get_motor_directionM (setDirectionData (setDirectionData s m1 d1.code) m2 d2.code) m2 =
        d2.code ∧
      get_motor_brakeM (setDirectionData (setDirectionData s m1 d1.code) m2 d2.code) m1 = 0 ∧
      get_motor_brakeM (setDirectionData (setDirectionData s m1 d1.code) m2 d2.code) m2 = 0 ∧
      (setDirectionData (setDirectionData s m1 d1.code) m2 d2.code).WF := by
  obtain ⟨ha, hb⟩ := setDirection_unbraked_decodes s m1 d1 h1 hb1
  have hf1 := channelFrame_setDirectionData s m1 d1.code h1 hwf
  have hwf1 := WF_setDirectionData s m1 d1.code hwf
  have hb2' : get_motor_brakeM (setDirectionData s m1 d1.code) m2 = 0 := by
    rw [(hf1.2.2.2 m2 (Ne.symm hne)).2]; exact hb2
  obtain ⟨hc, hd⟩ := setDirection_unbraked_decodes _ m2 d2 h2 hb2'
  have hf2 := channelFrame_setDirectionData _ m2 d2.code h2 hwf1
  refine ⟨?_, hd, ?_, hc, WF_setDirectionData _ m2 d2.code hwf1⟩
  · rw [(hf2.2.2.2 m1 hne).1]; exact hb
  · rw [(hf2.2.2.2 m1 hne).2]; exact ha

theorem stepMotor_shield (st : Wicked_Stepper) (b : Board) (k : Fin 4) :
    (st.stepMotor b (k.val : Int)).shield =
      setDirectionData (setDirectionData b.shield st.m1 (phaseDirections k).1) st.m2
        (phaseDirections k).2 := by
  fin_cases k <;> rfl

theorem phaseDirections_code (k : Fin 4) :
    ∃ d1 d2 : Direction, (phaseDirections k).1 = d1.code ∧ (phaseDirections k).2 = d2.code := by
  fin_cases k
  · exact ⟨.CW, .CCW, rfl, rfl⟩
  · exact ⟨.CCW, .CCW, rfl, rfl⟩
  · exact ⟨.CCW, .CW, rfl, rfl⟩
  · exact ⟨.CW, .CW, rfl, rfl⟩

theorem phaseDirections_next :
    ∀ k : Fin 4, differInOneCoil (phaseDirections k) (phaseDirections (k + 1)) := by
  decide

/-- On two different unbraked coils `stepMotor k` leaves the pair of phase `k`, both coils
unbraked and the shield well formed. -/
theorem stepMotor_table (st : Wicked_Stepper) (b : Board) (k : Fin 4) (hwf : b.shield.WF)
    (h1 : st.m1 < 6) (h2 : st.m2 < 6) (hne : st.m1 ≠ st.m2)
    (hb1 : get_motor_brakeM b.shield st.m1 = 0) (hb2 : get_motor_brakeM b.shield st.m2 = 0) :
    coilDirections st (st.stepMotor b (k.val : Int)) = phaseDirections k ∧
      get_motor_brakeM (st.stepMotor b (k.val : Int)).shield st.m1 = 0 ∧
      get_motor_brakeM (st.stepMotor b (k.val : Int)).shield st.m2 = 0 ∧
      (st.stepMotor b (k.val : Int)).shield.WF := by
  obtain ⟨d1, d2, e1, e2⟩ := phaseDirections_code k
  obtain ⟨p1, p2, p3, p4, p5⟩ := setDirection_pair b.shield st.m1 st.m2 d1 d2 hwf h1 h2 hne hb1 hb2
  unfold coilDirections
  rw [stepMotor_shield, e1, e2]
  exact ⟨Prod.ext (p1.trans e1.symm) (p2.trans e2.symm), p3, p4, p5⟩

/-- C22. Stepper phase table: with two different valid coil channels that are both
unbraked (on a well-formed state), after `stepMotor k` the decoded directions of the coils
`(m1, m2)` are (CW, CCW) for `k = 0`, (CCW, CCW) for `k = 1`, (CCW, CW) for `k = 2` and
(CW, CW) for `k = 3`; and going from any phase `k` to the cyclically next phase
`(k + 1) mod 4` changes the direction of exactly one coil. -/
theorem stepper_phase_table (st : Wicked_Stepper) (b : Board) (hwf : b.shield.WF)
    (h1 : st.m1 < 6) (h2 : st.m2 < 6) (hne : st.m1 ≠ st.m2)
    (hb1 : get_motor_brakeM b.shield st.m1 = 0) (hb2 : get_motor_brakeM b.shield st.m2 = 0) :
    coilDirections st (st.stepMotor b 0) = (DIR_CW, DIR_CCW) ∧
    coilDirections st (st.stepMotor b 1) = (DIR_CCW, DIR_CCW) ∧
    coilDirections st (st.stepMotor b 2) = (DIR_CCW, DIR_CW) ∧
    coilDirections st (st.stepMotor b 3) = (DIR_CW, DIR_CW) ∧
    ∀ k : Fin 4,
      differInOneCoil (coilDirections st (st.stepMotor b (k.val : Int)))
        (coilDirections st
          (st.stepMotor (st.stepMotor b (k.val : Int)) (((k + 1 : Fin 4)).val : Int))) := by
  refine ⟨(stepMotor_table st b 0 hwf h1 h2 hne hb1 hb2).1,
    (stepMotor_table st b 1 hwf h1 h2 hne hb1 hb2).1,
    (stepMotor_table st b 2 hwf h1 h2 hne hb1 hb2).1,
    (stepMotor_table st b 3 hwf h1 h2 hne hb1 hb2).1, fun k => ?_⟩
  obtain ⟨t1, t2, t3, t4⟩ := stepMotor_table st b k hwf h1 h2 hne hb1 hb2
  rw [t1, (stepMotor_table st _ (k + 1) t4 h1 h2 hne t2 t3).1]
  exact phaseDirections_next k

/-- Instance of `stepper_phase_table`: coils `M1` and `M4` of `sampleBoard`. -/
theorem stepper_phase_table_witness :
    (sampleBoard.shield.WF ∧ (0 : Nat) < 6 ∧ (3 : Nat) < 6 ∧ (0 : Nat) ≠ 3 ∧
      get_motor_brakeM sampleBoard.shield 0 = 0 ∧ get_motor_brakeM sampleBoard.shield 3 = 0) ∧
    coilDirections { sampleStepper with m1 := 0, m2 := 3 }
        (Wicked_Stepper.stepMotor { sampleStepper with m1 := 0, m2 := 3 } sampleBoard 0) =
      (DIR_CW, DIR_CCW) :=
  ⟨⟨by decide, by decide, by decide, by decide, by decide, by decide⟩,
    (stepper_phase_table { sampleStepper with m1 := 0, m2 := 3 } sampleBoard (by decide)
      (by decide) (by decide) (by decide) (by decide) (by decide)).1⟩

/-! ## The constructors of the stepper and of the DC motor -/

theorem setSpeedM_shield (b : Board) (m v : Nat) : (setSpeedM b m v).shield = b.shield := by
  unfold setSpeedM
  split_ifs <;> rfl

theorem stepper_new_shield (b : Board) (n m1 m2 flag sd : Nat) :
    (Wicked_Stepper_new b n m1 m2 flag sd).2.shield =
      setBrakeData (setBrakeData (setDirectionData (setDirectionData
        (WickedMotorShield_new b flag).shield m1 DIR_CW) m2 DIR_CW) m1 BRAKE_OFF) m2
        BRAKE_OFF := by
  simp [Wicked_Stepper_new, load_shift_register, setSpeedM_shield]

theorem ctor_facts (b : Board) (flag : Nat) (hwf : b.shield.WF) :
    (WickedMotorShield_new b flag).shield.WF ∧
      (∀ c, c < 6 → (WickedMotorShield_new b flag).shield.oldDir c = 1) ∧
      ∀ c, get_motor_directionM (WickedMotorShield_new b flag).shield c =
          get_motor_directionM b.shield c ∧
        get_motor_brakeM (WickedMotorShield_new b flag).shield c =
          get_motor_brakeM b.shield c := by
  have ho := ctor_old_dir b.shield.old_dir hwf.2.2.1
  rw [ctor_shield]
  have hall : ∀ x ∈ [DIR_CW, DIR_CW, DIR_CW, DIR_CW, DIR_CW, DIR_CW], x < 256 := by decide
  refine ⟨⟨hwf.1, hwf.2.1, by rw [ho]; rfl, by rw [ho]; exact hall⟩, fun c hc => ?_,
    fun c => ⟨rfl, rfl⟩⟩
  unfold Shield.oldDir
  simp only [ho]
  interval_cases c <;> rfl

/-- A saved direction that is clockwise stays clockwise under `setDirectionData k DIR_CW`. -/
theorem cw_old_setDirectionData (s : Shield) (k c : Nat) (hwf : s.WF) (hk : k < 6)
    (ho : s.oldDir c = 1) : (setDirectionData s k DIR_CW).oldDir c = 1 := by
  by_cases hck : c = k
  · subst hck
    rcases braked_or_not s c with hb | hb
    · exact oldDir_setDirectionData_unbraked s c Direction.CW hk hwf.2.2.1 hb
    · rw [setDirectionData_braked s c _ hb]; exact ho
  · rw [(channelFrame_setDirectionData s k DIR_CW hk hwf).2.2.1 c hck]; exact ho

/-- After `setDirectionData k DIR_CW` a channel that is unbraked is clockwise, when it is
`k` or was so before. -/
theorem cw_dir_setDirectionData (s : Shield) (k c : Nat) (hwf : s.WF) (hk : k < 6)
    (hr : c = k ∨ (get_motor_brakeM s c = 0 → get_motor_directionM s c = 1)) :
    get_motor_brakeM (setDirectionData s k DIR_CW) c = 0 →
      get_motor_directionM (setDirectionData s k DIR_CW) c = 1 := by
  by_cases hck : c = k
  · subst hck
    rcases braked_or_not s c with hb | hb
    · exact fun _ => (setDirection_unbraked_decodes s c Direction.CW hk hb).2
    · rw [setDirectionData_braked s c _ hb]
      exact fun h0 => absurd h0 (Nat.ne_of_gt hb)
  · have hf := channelFrame_setDirectionData s k DIR_CW hk hwf
    rw [(hf.2.2.2 c hck).1, (hf.2.2.2 c hck).2]
    rcases hr with hr | hr
    · exact absurd hr hck
    · exact hr

theorem old_dir_release (s : Shield) (k : Nat) (hwf : s.WF) :
    (setBrakeData s k BRAKE_OFF).old_dir = s.old_dir := by
  by_cases hk6 : 6 ≤ k
  · rw [setBrakeData_bad s k _ hk6]
  have hk : k < 6 := Nat.lt_of_not_le hk6
  rcases braked_or_not s k with hb | hb
  · rw [release_unbraked s k hk hwf hb]
  · rw [setBrakeData_off_braked s k hk hb, old_dir_set_reg]

/-- Releasing a channel whose saved direction is clockwise and which is clockwise if
unbraked leaves it unbraked and clockwise. -/
theorem cw_release (s : Shield) (k : Nat) (hwf : s.WF) (hk : k < 6) (ho : s.oldDir k = 1)
    (hr : get_motor_brakeM s k = 0 → get_motor_directionM s k = 1) :
    get_motor_brakeM (setBrakeData s k BRAKE_OFF) k = 0 ∧
      get_motor_directionM (setBrakeData s k BRAKE_OFF) k = 1 := by
  rcases braked_or_not s k with hb | hb
  · rw [release_unbraked s k hk hwf hb]; exact ⟨hb, hr hb⟩
  · obtain ⟨h1, h2⟩ := release_braked s k hk hb
    rw [h1, h2, ho]; exact ⟨rfl, rfl⟩

/-- The four mutator calls of the stepper constructor, on a state whose saved directions
are all clockwise: both coils end unbraked and clockwise, and no other channel changes. -/
theorem coils_released (s : Shield) (m1 m2 : Nat) (hwf : s.WF) (h1 : m1 < 6) (h2 : m2 < 6)
    (ho : ∀ c, c < 6 → s.oldDir c = 1) :
    (get_motor_brakeM (setBrakeData (setBrakeData (setDirectionData (setDirectionData s m1
        DIR_CW) m2 DIR_CW) m1 BRAKE_OFF) m2 BRAKE_OFF) m1 = 0 ∧
      get_motor_directionM (setBrakeData (setBrakeData (setDirectionData (setDirectionData s m1
        DIR_CW) m2 DIR_CW) m1 BRAKE_OFF) m2 BRAKE_OFF) m1 = 1) ∧
    (get_motor_brakeM (setBrakeData (setBrakeData (setDirectionData (setDirectionData s m1
        DIR_CW) m2 DIR_CW) m1 BRAKE_OFF) m2 BRAKE_OFF) m2 = 0 ∧
      get_motor_directionM (setBrakeData (setBrakeData (setDirectionData (setDirectionData s m1
        DIR_CW) m2 DIR_CW) m1 BRAKE_OFF) m2 BRAKE_OFF) m2 = 1) ∧
    ∀ d, d ≠ m1 → d ≠ m2 →
      get_motor_directionM (setBrakeData (setBrakeData (setDirectionData (setDirectionData s m1
          DIR_CW) m2 DIR_CW) m1 BRAKE_OFF) m2 BRAKE_OFF) d = get_motor_directionM s d ∧
        get_motor_brakeM (setBrakeData (setBrakeData (setDirectionData (setDirectionData s m1
          DIR_CW) m2 DIR_CW) m1 BRAKE_OFF) m2 BRAKE_OFF) d = get_motor_brakeM s d := by
  have w1 := WF_setDirectionData s m1 DIR_CW hwf
  have w2 := WF_setDirectionData _ m2 DIR_CW w1
  have w3 := WF_setBrakeData _ m1 BRAKE_OFF w2
  have f1 := channelFrame_setDirectionData s m1 DIR_CW h1 hwf
  have f2 := channelFrame_setDirectionData _ m2 DIR_CW h2 w1
  have f3 := channelFrame_setBrakeData _ m1 BRAKE_OFF h1 w2
  have f4 := channelFrame_setBrakeData _ m2 BRAKE_OFF h2 w3
  -- after the two direction calls
  have o1 := cw_old_setDirectionData s m1 m1 hwf h1 (ho m1 h1)
  have o2 := cw_old_setDirectionData s m1 m2 hwf h1 (ho m2 h2)
  have r1 := cw_dir_setDirectionData s m1 m1 hwf h1 (Or.inl rfl)
  have o1' := cw_old_setDirectionData _ m2 m1 w1 h2 o1
  have o2' := cw_old_setDirectionData _ m2 m2 w1 h2 o2
  have r1' := cw_dir_setDirectionData _ m2 m1 w1 h2 (Or.inr r1)
  have r2' := cw_dir_setDirectionData _ m2 m2 w1 h2 (Or.inl rfl)
  -- after the release of the first coil
  have u1 := cw_release _ m1 w2 h1 o1' r1'
  have o2'' : (setBrakeData (setDirectionData (setDirectionData s m1 DIR_CW) m2 DIR_CW) m1
      BRAKE_OFF).oldDir m2 = 1 := by
    unfold Shield.oldDir at o2' ⊢
    rw [old_dir_release _ m1 w2]; exact o2'
  have r2'' : get_motor_brakeM (setBrakeData (setDirectionData (setDirectionData s m1 DIR_CW)
      m2 DIR_CW) m1 BRAKE_OFF) m2 = 0 →
      get_motor_directionM (setBrakeData (setDirectionData (setDirectionData s m1 DIR_CW) m2
        DIR_CW) m1 BRAKE_OFF) m2 = 1 := by
    by_cases e : m2 = m1
    · subst e; exact fun _ => u1.2
    · rw [(f3.2.2.2 m2 e).1, (f3.2.2.2 m2 e).2]; exact r2'
  -- after the release of the second coil
  have u2 := cw_release _ m2 w3 h2 o2'' r2''
  refine ⟨?_, u2, fun d hd1 hd2 => ?_⟩
  · by_cases e : m1 = m2
    · subst e; exact u2
    · rw [(f4.2.2.2 m1 e).1, (f4.2.2.2 m1 e).2]; exact u1
  · rw [(f4.2.2.2 d hd2).1, (f4.2.2.2 d hd2).2, (f3.2.2.2 d hd1).1, (f3.2.2.2 d hd1).2,
      (f2.2.2.2 d hd2).1, (f2.2.2.2 d hd2).2, (f1.2.2.2 d hd1).1, (f1.2.2.2 d hd1).2]
    exact ⟨rfl, rfl⟩

/-- C26. For every pair of coil channels `m1`, `m2` in `0..5`, equal or not, and every
well-formed prior state, after the `Wicked_Stepper` constructor both coils decode as
unbraked with direction clockwise, and every other channel decodes to the direction and
brake values it had before. -/
theorem stepper_constructor_releases (b : Board) (n m1 m2 flag sd : Nat) (hwf : b.shield.WF)
    (h1 : m1 < 6) (h2 : m2 < 6) :
    (get_motor_brakeM (Wicked_Stepper_new b n m1 m2 flag sd).2.shield m1 = 0 ∧
      get_motor_directionM (Wicked_Stepper_new b n m1 m2 flag sd).2.shield m1 = DIR_CW) ∧
    (get_motor_brakeM (Wicked_Stepper_new b n m1 m2 flag sd).2.shield m2 = 0 ∧
      get_motor_directionM (Wicked_Stepper_new b n m1 m2 flag sd).2.shield m2 = DIR_CW) ∧
    ∀ d, d ≠ m1 → d ≠ m2 →
      get_motor_directionM (Wicked_Stepper_new b n m1 m2 flag sd).2.shield d =
          get_motor_directionM b.shield d ∧
        get_motor_brakeM (Wicked_Stepper_new b n m1 m2 flag sd).2.shield d =
          get_motor_brakeM b.shield d := by
  obtain ⟨c1, c2, c3⟩ := ctor_facts b flag hwf
  obtain ⟨p1, p2, p3⟩ := coils_released _ m1 m2 c1 h1 h2 c2
  rw [stepper_new_shield]
  refine ⟨p1, p2, fun d hd1 hd2 => ?_⟩
  rw [(p3 d hd1 hd2).1, (p3 d hd1 hd2).2]
  exact c3 d

/-- Instance of `stepper_constructor_releases`: a stepper on the hard braked `M2` and the
counter-clockwise `M4` of `sampleBoard`. -/
theorem stepper_constructor_releases_witness :
    (sampleBoard.shield.WF ∧ 1 < 6 ∧ 3 < 6) ∧
    ((get_motor_brakeM (Wicked_Stepper_new sampleBoard 200 1 3 0 0).2.shield 1 = 0 ∧
      get_motor_directionM (Wicked_Stepper_new sampleBoard 200 1 3 0 0).2.shield 1 = DIR_CW) ∧
    (get_motor_brakeM (Wicked_Stepper_new sampleBoard 200 1 3 0 0).2.shield 3 = 0 ∧
      get_motor_directionM (Wicked_Stepper_new sampleBoard 200 1 3 0 0).2.shield 3 = DIR_CW)) :=
  ⟨⟨by decide, by decide, by decide⟩,
    (stepper_constructor_releases sampleBoard 200 1 3 0 0 (by decide) (by decide)
      (by decide)).1,
    (stepper_constructor_releases sampleBoard 200 1 3 0 0 (by decide) (by decide)
      (by decide)).2.1⟩

/-- C27. Constructing an additional facade (`WickedMotorShield` or `Wicked_DCMotor`
constructor) on a well-formed state leaves both images as they were and sets all six
`old_dir` entries to clockwise. Consequently, on every channel `c`: from the startup state
release `c`, set it counter-clockwise and brake it hard (a state with `c` braked and saved
direction counter-clockwise); a release then gives counter-clockwise, but constructing
another `Wicked_DCMotor` first and then releasing gives clockwise. -/
theorem additional_facade_resets_saved_direction (b : Board) (motor_number flag : Nat)
    (hwf : b.shield.WF) :
    ((WickedMotorShield_new b flag).shield.first_shift_register =
        b.shield.first_shift_register ∧
      (WickedMotorShield_new b flag).shield.second_shift_register =
        b.shield.second_shift_register ∧
      (WickedMotorShield_new b flag).shield.old_dir =
        [DIR_CW, DIR_CW, DIR_CW, DIR_CW, DIR_CW, DIR_CW]) ∧
    ((Wicked_DCMotor_new b motor_number flag).2.shield.first_shift_register =
        b.shield.first_shift_register ∧
      (Wicked_DCMotor_new b motor_number flag).2.shield.second_shift_register =
        b.shield.second_shift_register ∧
      (Wicked_DCMotor_new b motor_number flag).2.shield.old_dir =
        [DIR_CW, DIR_CW, DIR_CW, DIR_CW, DIR_CW, DIR_CW]) ∧
    ∀ c : Fin 6,
      get_motor_directionM
          (setDirectionData (setBrakeData startupState c.val BRAKE_OFF) c.val DIR_CCW) c.val =
        DIR_CCW ∧
      get_motor_brakeM (brakedCounterClockwise c.val) c.val = 1 ∧
      (brakedCounterClockwise c.val).oldDir c.val = DIR_CCW ∧
      get_motor_directionM (setBrakeData (brakedCounterClockwise c.val) c.val BRAKE_OFF) c.val =
        DIR_CCW ∧
      get_motor_directionM
          (setBrakeData
            (Wicked_DCMotor_new
              { shield := brakedCounterClockwise c.val, pins := staticPins, trace := [] }
              motor_number flag).2.shield c.val BRAKE_OFF) c.val = DIR_CW := by
  have ho := ctor_old_dir b.shield.old_dir hwf.2.2.1
  refine ⟨⟨rfl, rfl, ho⟩, ⟨rfl, rfl, ho⟩, fun c => ?_⟩
  have hshield : (Wicked_DCMotor_new
      { shield := brakedCounterClockwise c.val, pins := staticPins, trace := [] }
      motor_number flag).2.shield =
      { brakedCounterClockwise c.val with old_dir := [1, 1, 1, 1, 1, 1] } := by
    have hl : (brakedCounterClockwise c.val).old_dir.length = 6 :=
      (WF_setBrakeData _ _ _ (WF_setDirectionData _ _ _
        (WF_setBrakeData startupState _ _ (by decide)))).2.2.1
    show ({ brakedCounterClockwise c.val with
      old_dir := (List.range 6).foldl (fun acc ii => acc.set ii DIR_CW)
        (brakedCounterClockwise c.val).old_dir } : Shield) = _
    rw [ctor_old_dir _ hl]; rfl
  rw [hshield]
  clear hshield
  revert c
  decide

/-- Instance of `additional_facade_resets_saved_direction`: a second motor on
`sampleBoard`. -/
theorem additional_facade_resets_saved_direction_witness :
    (sampleBoard.shield.WF) ∧
    ((WickedMotorShield_new sampleBoard 0).shield.first_shift_register =
        sampleBoard.shield.first_shift_register ∧
      (WickedMotorShield_new sampleBoard 0).shield.second_shift_register =
        sampleBoard.shield.second_shift_register ∧
      (WickedMotorShield_new sampleBoard 0).shield.old_dir =
        [DIR_CW, DIR_CW, DIR_CW, DIR_CW, DIR_CW, DIR_CW]) :=
  ⟨by decide, (additional_facade_resets_saved_direction sampleBoard 2 0 (by decide)).1⟩

/-! ## The step counter of the stepper -/

theorem advance_fields (st : Wicked_Stepper) :
    st.advance.number_of_steps = st.number_of_steps ∧ st.advance.direction = st.direction ∧
      st.advance.step_delay = st.step_delay ∧ st.advance.m1 = st.m1 ∧
      st.advance.m2 = st.m2 ∧ st.advance.last_step_time = st.last_step_time := by
  unfold Wicked_Stepper.advance
  dsimp only
  split_ifs <;> exact ⟨rfl, rfl, rfl, rfl, rfl, rfl⟩

/-- A forward step: the step number goes up by one and wraps to 0 at `number_of_steps`. -/
theorem advance_forward (st : Wicked_Stepper) (hN16 : st.number_of_steps < 65536)
    (hs : st.step_number < st.number_of_steps) (hd : st.direction = 1) :
    st.advance.step_number =
      if st.step_number + 1 = st.number_of_steps then 0 else st.step_number + 1 := by
  have e : (st.step_number + 1) % 2 ^ 16 = st.step_number + 1 :=
    Nat.mod_eq_of_lt (by norm_num; omega)
  unfold Wicked_Stepper.advance
  simp only [hd, if_true, e]
  split_ifs <;> rfl

/-- A backward step: the step number goes down by one and wraps from 0 to
`number_of_steps - 1`. -/
theorem advance_backward (st : Wicked_Stepper) (hN : 1 ≤ st.number_of_steps)
    (hN16 : st.number_of_steps < 65536) (hs : st.step_number < st.number_of_steps)
    (hd : st.direction ≠ 1) :
    st.advance.step_number =
      if st.step_number = 0 then st.number_of_steps - 1 else st.step_number - 1 := by
  unfold Wicked_Stepper.advance
  simp only [hd, if_false]
  split_ifs with h0
  · show (st.number_of_steps + (2 ^ 16 - 1)) % 2 ^ 16 = st.number_of_steps - 1
    norm_num; omega
  · show (st.step_number + (2 ^ 16 - 1)) % 2 ^ 16 = st.step_number - 1
    norm_num; omega

theorem advance_lt (st : Wicked_Stepper) (hN : 1 ≤ st.number_of_steps)
    (hN16 : st.number_of_steps < 65536) (hs : st.step_number < st.number_of_steps) :
    st.advance.step_number < st.number_of_steps := by
  by_cases hd : st.direction = 1
  · rw [advance_forward st hN16 hs hd]; split_ifs <;> omega
  · rw [advance_backward st hN hN16 hs hd]; split_ifs <;> omega

/-- The signed unit of a step: `1` forward, `-1` backward. -/
theorem advance_emod (st : Wicked_Stepper) (hN : 1 ≤ st.number_of_steps)
    (hN16 : st.number_of_steps < 65536) (hs : st.step_number < st.number_of_steps) :
    (st.advance.step_number : Int) =
      ((st.step_number : Int) + (if st.direction = 1 then 1 else -1)) %
        (st.number_of_steps : Int) := by
  by_cases hd : st.direction = 1
  · rw [advance_forward st hN16 hs hd, if_pos hd]
    split_ifs with h
    · have : ((st.step_number : Int) + 1) = (st.number_of_steps : Int) := by omega
      rw [this, Int.emod_self]; rfl
    · rw [Int.emod_eq_of_lt (by omega) (by omega)]; push_cast; rfl
  · rw [advance_backward st hN hN16 hs hd, if_neg hd]
    split_ifs with h
    · rw [← Int.add_emod_self, Int.emod_eq_of_lt (by omega) (by omega)]
      omega
    · rw [Int.emod_eq_of_lt (by omega) (by omega)]
      omega

theorem flushCount_load (b : Board) :
    flushCount (load_shift_register b).trace = flushCount b.trace + 1 := by
  simp [flushCount, load_shift_register, List.count_append, List.count_cons,
    SERIAL_LATCH_PIN]

theorem flushCount_stepMotor (st : Wicked_Stepper) (b : Board) (k : Int) :
    flushCount (st.stepMotor b k).trace = flushCount b.trace + 1 := by
  unfold Wicked_Stepper.stepMotor
  exact flushCount_load _

theorem stepLoop_done (clock : Nat → Nat) (fuel k : Nat) (st : Wicked_Stepper) (b : Board) :
    Wicked_Stepper.stepLoop clock fuel 0 k st b = some (st, b) := by
  cases fuel <;> rfl

/-- A poll that finds the delay elapsed: one step is taken and two clock readings are used. -/
theorem stepLoop_elapsed (clock : Nat → Nat) (fuel steps_left k : Nat) (st : Wicked_Stepper)
    (b : Board)
    (h : (clock k % 2 ^ 32 + 2 ^ 32 - st.last_step_time % 2 ^ 32) % 2 ^ 32 ≥ st.step_delay) :
    Wicked_Stepper.stepLoop clock (fuel + 1) (steps_left + 1) k st b =
      Wicked_Stepper.stepLoop clock fuel steps_left (k + 2)
        ({ st with last_step_time := clock (k + 1) % 2 ^ 32 } : Wicked_Stepper).advance
        ((({ st with last_step_time := clock (k + 1) % 2 ^ 32 } : Wicked_Stepper).advance).stepMotor
          b ((({ st with last_step_time := clock (k + 1) % 2 ^ 32 } :
            Wicked_Stepper).advance).step_number % 4)) := by
  rw [Wicked_Stepper.stepLoop]
  simp only [if_pos h]

/-- A poll that finds the delay not elapsed: nothing changes, one clock reading is used. -/
theorem stepLoop_waiting (clock : Nat → Nat) (fuel steps_left k : Nat) (st : Wicked_Stepper)
    (b : Board)
    (h : ¬ (clock k % 2 ^ 32 + 2 ^ 32 - st.last_step_time % 2 ^ 32) % 2 ^ 32 ≥ st.step_delay) :
    Wicked_Stepper.stepLoop clock (fuel + 1) (steps_left + 1) k st b =
      Wicked_Stepper.stepLoop clock fuel (steps_left + 1) (k + 1) st b := by
  rw [Wicked_Stepper.stepLoop]
  simp only [if_neg h]

/-- What the loop of `step` has done when it finishes. -/
theorem stepLoop_spec (clock : Nat → Nat) (fuel : Nat) :
    ∀ (steps_left k : Nat) (st : Wicked_Stepper) (b : Board) (r : Wicked_Stepper × Board),
      1 ≤ st.number_of_steps → st.number_of_steps < 65536 →
      st.step_number < st.number_of_steps →
      Wicked_Stepper.stepLoop clock fuel steps_left k st b = some r →
      r.1.number_of_steps = st.number_of_steps ∧ r.1.direction = st.direction ∧
        r.1.step_number < st.number_of_steps ∧
        (r.1.step_number : Int) =
          ((st.step_number : Int) + (if st.direction = 1 then 1 else -1) * (steps_left : Int)) %
            (st.number_of_steps : Int) ∧
        flushCount r.2.trace = flushCount b.trace + steps_left := by
  induction fuel with
  | zero =>
    intro steps_left k st b r hN hN16 hs h
    cases steps_left with
    | zero =>
      rw [stepLoop_done] at h
      cases h
      refine ⟨rfl, rfl, hs, ?_, rfl⟩
      simp only [Nat.cast_zero, mul_zero, add_zero]
      exact (Int.emod_eq_of_lt (by omega) (by omega)).symm
    | succ n => simp [Wicked_Stepper.stepLoop] at h
  | succ fuel ih =>
    intro steps_left k st b r hN hN16 hs h
    cases steps_left with
    | zero =>
      rw [stepLoop_done] at h
      cases h
      refine ⟨rfl, rfl, hs, ?_, rfl⟩
      simp only [Nat.cast_zero, mul_zero, add_zero]
      exact (Int.emod_eq_of_lt (by omega) (by omega)).symm
    | succ n =>
      by_cases hcond :
          (clock k % 2 ^ 32 + 2 ^ 32 - st.last_step_time % 2 ^ 32) % 2 ^ 32 ≥ st.step_delay
      · rw [stepLoop_elapsed clock fuel n k st b hcond] at h
        obtain ⟨f1, f2, _, _, _, _⟩ :=
          advance_fields ({ st with last_step_time := clock (k + 1) % 2 ^ 32 } : Wicked_Stepper)
        have hlt := advance_lt
          ({ st with last_step_time := clock (k + 1) % 2 ^ 32 } : Wicked_Stepper) hN hN16 hs
        have hem := advance_emod
          ({ st with last_step_time := clock (k + 1) % 2 ^ 32 } : Wicked_Stepper) hN hN16 hs
        obtain ⟨g1, g2, g3, g4, g5⟩ := ih n (k + 2) _ _ r (by rw [f1]; exact hN)
          (by rw [f1]; exact hN16) (by rw [f1]; exact hlt) h
        rw [f1] at g1 g3 g4
        rw [f2] at g2 g4
        rw [flushCount_stepMotor] at g5
        refine ⟨g1, g2, g3, ?_, by rw [g5]; omega⟩
        rw [g4, hem, Int.emod_add_emod]
        congr 1
        push_cast
        ring
      · rw [stepLoop_waiting clock fuel n k st b hcond] at h
        exact ih (n + 1) (k + 1) st b r hN hN16 hs h

/-- With a zero step delay every poll succeeds: the loop finishes within `steps_left`
iterations. -/
theorem stepLoop_terminates (clock : Nat → Nat) (fuel : Nat) :
    ∀ (steps_left k : Nat) (st : Wicked_Stepper) (b : Board),
      st.step_delay = 0 → steps_left ≤ fuel →
      (Wicked_Stepper.stepLoop clock fuel steps_left k st b).isSome = true := by
  induction fuel with
  | zero =>
    intro steps_left k st b _ hle
    have : steps_left = 0 := by omega
    subst this
    rfl
  | succ fuel ih =>
    intro steps_left k st b hd hle
    cases steps_left with
    | zero => rw [stepLoop_done]; rfl
    | succ n =>
      rw [stepLoop_elapsed clock fuel n k st b (by rw [hd]; exact Nat.zero_le _)]
      exact ih n (k + 2) _ _
        (by rw [(advance_fields _).2.2.1]; exact hd) (by omega)

theorem step_pos (st : Wicked_Stepper) (b : Board) (clock : Nat → Nat) (fuel : Nat)
    (count : Int) (h0 : 0 < count) (h1 : count ≤ 32767) :
    st.step b clock fuel count =
      Wicked_Stepper.stepLoop clock fuel count.natAbs 0 { st with direction := 1 } b := by
  have a : ¬ (count < -32767 ∨ 32767 < count) := by omega
  have c : ¬ count < 0 := by omega
  simp only [Wicked_Stepper.step, if_neg a, gt_iff_lt, if_pos h0, if_neg c]

theorem step_neg (st : Wicked_Stepper) (b : Board) (clock : Nat → Nat) (fuel : Nat)
    (count : Int) (h0 : count < 0) (h1 : -32767 ≤ count) :
    st.step b clock fuel count =
      Wicked_Stepper.stepLoop clock fuel count.natAbs 0 { st with direction := 0 } b := by
  have a : ¬ (count < -32767 ∨ 32767 < count) := by omega
  have c : ¬ 0 < count := by omega
  simp only [Wicked_Stepper.step, if_neg a, gt_iff_lt, if_pos h0, if_neg c]

theorem step_zero (st : Wicked_Stepper) (b : Board) (clock : Nat → Nat) (fuel : Nat) :
    st.step b clock fuel 0 = some (st, b) := by
  simp [Wicked_Stepper.step, stepLoop_done]

/-- The phase `step_number mod 4` after the update of `step_number`: one further forward
and three further backward unless the step number wraps; at a wrap the phase is 0 forward
and `(N - 1) mod 4` backward, which is the same when 4 divides `N`. -/
theorem advance_phase (st : Wicked_Stepper) (hN : 1 ≤ st.number_of_steps)
    (hN16 : st.number_of_steps < 65536) (hs : st.step_number < st.number_of_steps) :
    (st.direction = 1 →
      (st.step_number + 1 ≠ st.number_of_steps →
        st.advance.step_number % 4 = (st.step_number % 4 + 1) % 4) ∧
      (st.step_number + 1 = st.number_of_steps → st.advance.step_number % 4 = 0) ∧
      (4 ∣ st.number_of_steps → st.advance.step_number % 4 = (st.step_number % 4 + 1) % 4)) ∧
    (st.direction ≠ 1 →
      (st.step_number ≠ 0 → st.advance.step_number % 4 = (st.step_number % 4 + 3) % 4) ∧
      (st.step_number = 0 → st.advance.step_number % 4 = (st.number_of_steps - 1) % 4) ∧
      (4 ∣ st.number_of_steps → st.advance.step_number % 4 = (st.step_number % 4 + 3) % 4)) := by
  refine ⟨fun hd => ?_, fun hd => ?_⟩
  · rw [advance_forward st hN16 hs hd]
    refine ⟨fun h => ?_, fun h => ?_, fun h => ?_⟩
    · rw [if_neg h]; omega
    · rw [if_pos h]
    · obtain ⟨q, hq⟩ := h
      split_ifs <;> omega
  · rw [advance_backward st hN hN16 hs hd]
    refine ⟨fun h => ?_, fun h => ?_, fun h => ?_⟩
    · rw [if_neg h]; omega
    · rw [if_pos h]
    · obtain ⟨q, hq⟩ := h
      split_ifs <;> omega

/-- The board after `stepMotor` depends on the stepper through its two coils only, and on
the argument through its value. -/
theorem stepMotor_phase (st st1 : Wicked_Stepper) (b : Board) (x n : Nat)
    (h1 : st1.m1 = st.m1) (h2 : st1.m2 = st.m2) (h : x % 4 = n) :
    st1.stepMotor b ((x : Int) % 4) = st.stepMotor b (n : Int) := by
  have e : (x : Int) % 4 = (n : Int) := by omega
  rw [e]
  unfold Wicked_Stepper.stepMotor
  rw [h1, h2]

/-- A poll that finds the delay elapsed takes the step whose phase is the new
`step_number mod 4`. -/
theorem takesStep_of_phase (clock : Nat → Nat) (fuel steps_left k : Nat) (st : Wicked_Stepper)
    (b : Board) (n : Nat) (hel : Elapsed clock k st)
    (h : ({ st with last_step_time := clock (k + 1) % 2 ^ 32 } :
      Wicked_Stepper).advance.step_number % 4 = n) :
    TakesStep clock fuel steps_left k st b n := by
  unfold TakesStep
  rw [stepLoop_elapsed clock fuel steps_left k st b hel]
  obtain ⟨_, _, _, f4, f5, _⟩ :=
    advance_fields ({ st with last_step_time := clock (k + 1) % 2 ^ 32 } : Wicked_Stepper)
  rw [stepMotor_phase st _ b _ n f4 f5 h]

/-- Forward: the step taken has phase `(p + 1) mod 4`, off the wrap or with 4 dividing `N`. -/
theorem takesStep_forward (clock : Nat → Nat) (fuel steps_left k : Nat) (st : Wicked_Stepper)
    (b : Board) (hN : 1 ≤ st.number_of_steps) (hN16 : st.number_of_steps < 65536)
    (hs : st.step_number < st.number_of_steps) (hel : Elapsed clock k st)
    (hd : st.direction = 1)
    (hw : st.step_number + 1 ≠ st.number_of_steps ∨ 4 ∣ st.number_of_steps) :
    TakesStep clock fuel steps_left k st b ((st.step_number % 4 + 1) % 4) := by
  apply takesStep_of_phase clock fuel steps_left k st b _ hel
  have h := (advance_phase ({ st with last_step_time := clock (k + 1) % 2 ^ 32 } :
    Wicked_Stepper) hN hN16 hs).1 hd
  rcases hw with hw | hw
  · exact h.1 hw
  · exact h.2.2 hw

/-- Backward: the step taken has phase `(p + 3) mod 4`, off the wrap or with 4 dividing
`N`. -/
theorem takesStep_backward (clock : Nat → Nat) (fuel steps_left k : Nat) (st : Wicked_Stepper)
    (b : Board) (hN : 1 ≤ st.number_of_steps) (hN16 : st.number_of_steps < 65536)
    (hs : st.step_number < st.number_of_steps) (hel : Elapsed clock k st)
    (hd : st.direction ≠ 1)
    (hw : st.step_number ≠ 0 ∨ 4 ∣ st.number_of_steps) :
    TakesStep clock fuel steps_left k st b ((st.step_number % 4 + 3) % 4) := by
  apply takesStep_of_phase clock fuel steps_left k st b _ hel
  have h := (advance_phase ({ st with last_step_time := clock (k + 1) % 2 ^ 32 } :
    Wicked_Stepper) hN hN16 hs).2 hd
  rcases hw with hw | hw
  · exact h.1 hw
  · exact h.2.2 hw

/-- C21, as the code has it. For a stepper with `1 ≤ number_of_steps = N < 2 ^ 16` and
`step_number < N`, every iteration of the loop of `step()` that takes a step (its poll finds
the delay elapsed) calls `stepMotor` with the phase `(p + 1) mod 4` in the forward direction
and `(p + 3) mod 4` in the backward direction, where `p = step_number mod 4` before the
step, provided the step does not wrap `step_number` (forward from `N - 1`, backward from 0)
or `N` is a multiple of 4. In particular `step(1)` and `step(-1)` whose first poll finds the
delay elapsed return the board that `stepMotor` with that phase leaves. -/
theorem phase_advance (st : Wicked_Stepper) (b : Board) (clock : Nat → Nat)
    (fuel steps_left k : Nat) (hN : 1 ≤ st.number_of_steps)
    (hN16 : st.number_of_steps < 65536) (hs : st.step_number < st.number_of_steps)
    (hel : Elapsed clock k st) :
    (st.direction = 1 →
      st.step_number + 1 ≠ st.number_of_steps ∨ 4 ∣ st.number_of_steps →
      TakesStep clock fuel steps_left k st b ((st.step_number % 4 + 1) % 4)) ∧
    (st.direction ≠ 1 →
      st.step_number ≠ 0 ∨ 4 ∣ st.number_of_steps →
      TakesStep clock fuel steps_left k st b ((st.step_number % 4 + 3) % 4)) ∧
    (k = 0 → st.step_number + 1 ≠ st.number_of_steps ∨ 4 ∣ st.number_of_steps →
      st.step b clock (fuel + 1) 1 =
        some (({ st with direction := 1, last_step_time := clock 1 % 2 ^ 32 } :
            Wicked_Stepper).advance,
          st.stepMotor b (((st.step_number % 4 + 1) % 4 : Nat) : Int))) ∧
    (k = 0 → st.step_number ≠ 0 ∨ 4 ∣ st.number_of_steps →
      st.step b clock (fuel + 1) (-1) =
        some (({ st with direction := 0, last_step_time := clock 1 % 2 ^ 32 } :
            Wicked_Stepper).advance,
          st.stepMotor b (((st.step_number % 4 + 3) % 4 : Nat) : Int))) := by
  refine ⟨fun hd hw => takesStep_forward clock fuel steps_left k st b hN hN16 hs hel hd hw,
    fun hd hw => takesStep_backward clock fuel steps_left k st b hN hN16 hs hel hd hw,
    fun hk hw => ?_, fun hk hw => ?_⟩
  · subst hk
    have h := takesStep_forward clock fuel 0 0 ({ st with direction := 1 } : Wicked_Stepper) b
      hN hN16 hs hel rfl hw
    unfold TakesStep at h
    rw [step_pos st b clock (fuel + 1) 1 (by decide) (by decide)]
    show Wicked_Stepper.stepLoop clock (fuel + 1) (0 + 1) 0 _ b = _
    rw [h, stepLoop_done]
    rfl
  · subst hk
    have h := takesStep_backward clock fuel 0 0 ({ st with direction := 0 } : Wicked_Stepper) b
      hN hN16 hs hel Nat.zero_ne_one hw
    unfold TakesStep at h
    rw [step_neg st b clock (fuel + 1) (-1) (by decide) (by decide)]
    show Wicked_Stepper.stepLoop clock (fuel + 1) (0 + 1) 0 _ b = _
    rw [h, stepLoop_done]
    rfl

/-- Instance of `phase_advance`: a 200-step stepper on the unbraked coils `M1`, `M4` of
`sampleBoard`, at step 0, takes one forward step with `step(1)`; `stepMotor` is called with
phase 1, which leaves both coils counter-clockwise. -/
theorem phase_advance_witness :
    (1 ≤ 200 ∧ 200 < 65536 ∧ 0 < 200 ∧
      Elapsed (fun _ => 0) 0 { sampleStepper with m1 := 0, m2 := 3 } ∧
      (0 + 1 ≠ 200 ∨ 4 ∣ 200)) ∧
    Wicked_Stepper.step { sampleStepper with m1 := 0, m2 := 3 } sampleBoard (fun _ => 0) 1 1 =
      some (Wicked_Stepper.advance
          { sampleStepper with m1 := 0, m2 := 3, direction := 1, last_step_time := 0 },
        Wicked_Stepper.stepMotor { sampleStepper with m1 := 0, m2 := 3 } sampleBoard 1) ∧
    coilDirections { sampleStepper with m1 := 0, m2 := 3 }
        (Wicked_Stepper.stepMotor { sampleStepper with m1 := 0, m2 := 3 } sampleBoard 1) =
      (DIR_CCW, DIR_CCW) :=
  ⟨⟨by decide, by decide, by decide, by decide, by decide⟩,
    (phase_advance { sampleStepper with m1 := 0, m2 := 3 } sampleBoard (fun _ => 0) 0 0 0
      (by decide) (by decide) (by decide) (by decide)).2.2.1 rfl (by decide),
    by decide⟩

/-- C21 fails when `number_of_steps` is not a multiple of 4: a stepper with 3 steps on the
unbraked coils `M1`, `M4`, at step 2 (phase 2), takes one forward step with `step(1)`; the
step number wraps to 0 and `stepMotor` is called with phase 0, leaving the coils at
(CW, CCW), and not with phase `(2 + 1) mod 4 = 3`, which would leave them at (CW, CW). -/
theorem phase_jumps_at_wrap :
    (1 ≤ 3 ∧ 2 < 3) ∧
    (Wicked_Stepper.step
        { sampleStepper with number_of_steps := 3, step_number := 2, m1 := 0, m2 := 3 }
        sampleBoard (fun _ => 0) 1 1).map (fun r => r.2) =
      some (Wicked_Stepper.stepMotor
        { sampleStepper with number_of_steps := 3, step_number := 2, m1 := 0, m2 := 3 }
        sampleBoard 0) ∧
    ¬ ((Wicked_Stepper.step
        { sampleStepper with number_of_steps := 3, step_number := 2, m1 := 0, m2 := 3 }
        sampleBoard (fun _ => 0) 1 1).map (fun r => r.2) =
      some (Wicked_Stepper.stepMotor
        { sampleStepper with number_of_steps := 3, step_number := 2, m1 := 0, m2 := 3 }
        sampleBoard (((2 % 4 + 1) % 4 : Nat) : Int))) ∧
    (Wicked_Stepper.step
        { sampleStepper with number_of_steps := 3, step_number := 2, m1 := 0, m2 := 3 }
        sampleBoard (fun _ => 0) 1 1).map
          (fun r => coilDirections { sampleStepper with m1 := 0, m2 := 3 } r.2) =
      some (DIR_CW, DIR_CCW) := by
  decide

/-- C23. Step count and position: for `1 ≤ number_of_steps = N < 2 ^ 16`,
`step_number = s < N` and `-32767 ≤ count ≤ 32767`, whenever `step(count)` returns (the
polling loop finishes under the given clock) it has called `stepMotor`, hence flushed,
exactly `|count|` times, `step_number` is `(s + count) mod N` and so below `N`, and
`direction` is 1 for a positive and 0 for a negative count; `step(0)` returns at once with
the stepper and the board unchanged; a poll that finds
`(now - last_step_time) mod 2 ^ 32 < step_delay` takes no step and changes nothing; and
with `step_delay = 0` the loop does finish, within `|count|` iterations. -/
theorem step_count_and_position (st : Wicked_Stepper) (b : Board) (clock : Nat → Nat)
    (fuel : Nat) (count : Int) (hN : 1 ≤ st.number_of_steps)
    (hN16 : st.number_of_steps < 65536) (hs : st.step_number < st.number_of_steps)
    (hc1 : -32767 ≤ count) (hc2 : count ≤ 32767) :
    (∀ r, st.step b clock fuel count = some r →
      flushCount r.2.trace = flushCount b.trace + count.natAbs ∧
        (r.1.step_number : Int) =
          ((st.step_number : Int) + count) % (st.number_of_steps : Int) ∧
        r.1.step_number < st.number_of_steps ∧
        r.1.direction = (if count > 0 then 1 else if count < 0 then 0 else st.direction)) ∧
    (count = 0 → st.step b clock fuel count = some (st, b)) ∧
    (∀ (fuel1 steps_left k : Nat) (st1 : Wicked_Stepper) (b1 : Board),
      (clock k % 2 ^ 32 + 2 ^ 32 - st1.last_step_time % 2 ^ 32) % 2 ^ 32 < st1.step_delay →
      Wicked_Stepper.stepLoop clock (fuel1 + 1) (steps_left + 1) k st1 b1 =
        Wicked_Stepper.stepLoop clock fuel1 (steps_left + 1) (k + 1) st1 b1) ∧
    (st.step_delay = 0 → count.natAbs ≤ fuel → (st.step b clock fuel count).isSome = true) := by
  refine ⟨fun r hr => ?_, fun h => by rw [h]; exact step_zero st b clock fuel,
    fun fuel1 steps_left k st1 b1 h =>
      stepLoop_waiting clock fuel1 steps_left k st1 b1 (Nat.not_le.mpr h),
    fun hd hf => ?_⟩
  · rcases lt_trichotomy count 0 with h | h | h
    · rw [step_neg st b clock fuel count h hc1] at hr
      obtain ⟨_, g2, g3, g4, g5⟩ :=
        stepLoop_spec clock fuel _ 0 ({ st with direction := 0 } : Wicked_Stepper) b r hN hN16 hs hr
      refine ⟨g5, ?_, g3, ?_⟩
      · rw [g4]
        congr 1
        show (st.step_number : Int) + (-1) * (count.natAbs : Int) = (st.step_number : Int) + count
        omega
      · rw [g2, if_neg (by omega), if_pos h]
    · subst h
      rw [step_zero] at hr
      cases hr
      refine ⟨rfl, ?_, hs, rfl⟩
      show (st.step_number : Int) = ((st.step_number : Int) + 0) % (st.number_of_steps : Int)
      rw [add_zero]
      exact (Int.emod_eq_of_lt (by omega) (by omega)).symm
    · rw [step_pos st b clock fuel count h hc2] at hr
      obtain ⟨_, g2, g3, g4, g5⟩ :=
        stepLoop_spec clock fuel _ 0 ({ st with direction := 1 } : Wicked_Stepper) b r hN hN16 hs hr
      refine ⟨g5, ?_, g3, ?_⟩
      · rw [g4]
        congr 1
        show (st.step_number : Int) + 1 * (count.natAbs : Int) = (st.step_number : Int) + count
        omega
      · rw [g2, if_pos h]
  · rcases lt_trichotomy count 0 with h | h | h
    · rw [step_neg st b clock fuel count h hc1]
      exact stepLoop_terminates clock fuel _ 0 _ b hd hf
    · subst h; rw [step_zero]; rfl
    · rw [step_pos st b clock fuel count h hc2]
      exact stepLoop_terminates clock fuel _ 0 _ b hd hf

/-- Instance of `step_count_and_position`: `sampleStepper` (200 steps, delay 0) stepping
back by 3 with a clock that stands still. -/
theorem step_count_and_position_witness :
    (1 ≤ sampleStepper.number_of_steps ∧ sampleStepper.number_of_steps < 65536 ∧
      sampleStepper.step_number < sampleStepper.number_of_steps ∧
      (-32767 : Int) ≤ -3 ∧ (-3 : Int) ≤ 32767 ∧ sampleStepper.step_delay = 0 ∧
      (-3 : Int).natAbs ≤ 3) ∧
    (sampleStepper.step sampleBoard (fun _ => 0) 3 (-3)).isSome = true ∧
    (sampleStepper.step sampleBoard (fun _ => 0) 3 (-3)).map (fun r => r.1.step_number) =
      some 197 :=
  ⟨⟨by decide, by decide, by decide, by decide, by decide, by decide, by decide⟩,
    (step_count_and_position sampleStepper sampleBoard (fun _ => 0) 3 (-3) (by decide)
      (by decide) (by decide) (by decide) (by decide)).2.2.2 (by decide) (by decide),
    by decide⟩

end WickedMotorShield
